import Mathlib

/-!
# Game of Life (`gol.js`): a shallow embedding and its verified properties

The embedding follows `src/gol.js` function by function.

* JavaScript arrays are modelled as lists of optional values (`JsArray`): an index
  past the end, or a hole, reads as `undefined` (`none`); a write past the end
  extends the array, leaving holes.
* Reading a property of `undefined` throws a `TypeError`; functions that can throw
  return `Option`, `none` standing for the uncaught exception (the state after an
  uncaught exception is not tracked).
* JavaScript numbers used as array indices and loop counters are naturals or integers;
  the products with `Math.random()` are IEEE-754 double multiplications (`Double.mul`).
* The browser services the program calls (`setInterval`, `clearInterval`, the canvas)
  are part of the state: the registered timers and the history of rendered frames.
-/

namespace Gol

/-! ## Constants (gol.js lines 15-22) -/

def WIDTH : Nat := 25

def HEIGHT : Nat := 25

def UPDATE_TIME : Nat := 100

def BUFFERS : Nat := 2

def DEAD : Nat := 0

def ALIVE : Nat := 1

/-! ## JavaScript arrays -/

/-- A JavaScript array: `none` is a hole, which reads as `undefined`. -/
abbrev JsArray (α : Type) := List (Option α)

/-- The read `a[i]`: `none` is `undefined` (index past the end, or a hole). -/
def jsGet {α : Type} (a : JsArray α) (i : Nat) : Option α :=
  (a[i]?).join

/-- The assignment `a[i] = v`: overwrites in range, otherwise extends the array. -/
def jsSet {α : Type} (a : JsArray α) (i : Nat) (v : α) : JsArray α :=
  if i < a.length then a.set i (some v)
  else a ++ List.replicate (i - a.length) none ++ [some v]

/-- A row of cells. -/
abbrev Row := JsArray Nat

/-- A world (one buffer): an array of rows. -/
abbrev World := JsArray Row

/-! ## Doubles

A non-negative finite double is `mant / 2 ^ exp`; it is representable when
`mant < 2 ^ 53` and `exp ≤ 1074`. -/

structure Double where
  mant : Nat
  exp : Nat
deriving DecidableEq, Repr

/-- The double is a representable one (53 significant bits, smallest quantum `2 ^ -1074`). -/
def Double.IsDouble (d : Double) : Prop := d.mant < 2 ^ 53 ∧ d.exp ≤ 1074

/-- The double lies in `[0, 1)`, the range of `Math.random()`. -/
def Double.IsUnit (d : Double) : Prop := d.IsDouble ∧ d.mant < 2 ^ d.exp

instance (d : Double) : Decidable d.IsDouble := by unfold Double.IsDouble; infer_instance

instance (d : Double) : Decidable d.IsUnit := by unfold Double.IsUnit; infer_instance

/-- An integer as a double. -/
def Double.ofNat (n : Nat) : Double := ⟨n, 0⟩

/-- The number of bits of `p` beyond 53 significant ones; `fuel` bounds the search, and
64 is enough for the product of two 53-bit mantissas (`excessBits_exact`). -/
def excessBits (p : Nat) : Nat → Nat
  | 0 => 0
  | fuel + 1 => if p < 2 ^ 53 then 0 else excessBits (p / 2) fuel + 1

/-- The quotient `p / 2 ^ b` rounded to nearest, ties to even. -/
def roundTiesEven (p b : Nat) : Nat :=
  let q := p / 2 ^ b
  let r := p % 2 ^ b
  if 2 * r < 2 ^ b then q
  else if 2 ^ b < 2 * r then q + 1
  else if q % 2 = 0 then q else q + 1

/-- IEEE-754 multiplication, round to nearest even, of two non-negative doubles whose
product does not overflow: the exact product `a.mant * b.mant / 2 ^ (a.exp + b.exp)`
is rounded to 53 significant bits, and to a multiple of `2 ^ -1074`. -/
def Double.mul (a b : Double) : Double :=
  let p := a.mant * b.mant
  let e := a.exp + b.exp
  let drop := max (excessBits p 64) (e - 1074)
  ⟨roundTiesEven p drop * 2 ^ drop, e⟩

/-- The result of `Math.floor(d)`. -/
def Double.floor (d : Double) : Nat := d.mant / 2 ^ d.exp

/-- The comparison `i < d` of a loop counter with a double. -/
def Double.natLt (i : Nat) (d : Double) : Bool := decide (i * 2 ^ d.exp < d.mant)

/-- The number of iterations of `for (let i = 0; i < d; i++)`: the least `n` with
`¬ (n < d)`. -/
def Double.ceil (d : Double) : Nat := (d.mant + 2 ^ d.exp - 1) / 2 ^ d.exp

/-- The literal `0.3`: the double `0x3FD3333333333333`. -/
def dbl0_3 : Double := ⟨5404319552844595, 54⟩

/-! ## Program state (gol.js lines 31-41) and the browser services -/

/-- The value of `_interval`: `undefined` initially, `null` after `stop`, or a timer id. -/
inductive TimerHandle where
  | undefined
  | null
  | id (n : Nat)
deriving DecidableEq, Repr

/-- A periodic timer registered with `setInterval`; its callback is always `step`. -/
structure Timer where
  id : Nat
  period : Nat
deriving DecidableEq, Repr

/-- One `draw()` call: the cells `(x, y)` painted as alive, in painting order. -/
abbrev Frame := List (Nat × Nat)

structure State where
  /-- The array `_worlds`. -/
  _worlds : JsArray World
  /-- The variable `_curDrawWorld`. -/
  _curDrawWorld : Nat
  /-- The variable `_isRunning`. -/
  _isRunning : Bool
  /-- The variable `_interval`. -/
  _interval : TimerHandle
  /-- Browser: the periodic timers currently registered. -/
  timers : List Timer
  /-- Browser: the id the next `setInterval` call returns. -/
  nextTimerId : Nat
  /-- Canvas: the frames drawn so far. -/
  frames : List Frame
deriving DecidableEq, Repr

/-- The call `setInterval(step, period)`: registers a timer and returns its id. -/
def setInterval (s : State) (period : Nat) : State × TimerHandle :=
  ({ s with timers := s.timers ++ [⟨s.nextTimerId, period⟩],
            nextTimerId := s.nextTimerId + 1 }, TimerHandle.id s.nextTimerId)

/-- The call `clearInterval(h)`: cancels the timer with that id, if any. -/
def clearInterval (s : State) (h : TimerHandle) : State :=
  match h with
  | TimerHandle.id n => { s with timers := s.timers.filter (fun t => t.id != n) }
  | _ => s

/-! ## Private functions (gol.js lines 163-242) -/

/-- The function `emptyWorld(world)` (lines 227-234): row `y` is replaced by a fresh
array, which is then filled with `WIDTH` cells `DEAD`. -/
def emptyWorld (world : World) : World :=
  (List.range HEIGHT).foldl (fun world y =>
    jsSet world y ((List.range WIDTH).foldl (fun row x => jsSet row x DEAD) [])) world

/-- The assignment `_worlds[k][y][x] = v`; throws when `_worlds[k]` or `_worlds[k][y]`
is `undefined`. -/
def setCell (s : State) (k y x v : Nat) : Option State := do
  let world ← jsGet s._worlds k
  let row ← jsGet world y
  pure { s with _worlds := jsSet s._worlds k (jsSet world y (jsSet row x v)) }

/-- The test `_worlds[k][y][x] === ALIVE`; throws when `_worlds[k]` or `_worlds[k][y]`
is `undefined`. -/
def cellIsAlive (s : State) (k y x : Nat) : Option Bool := do
  let world ← jsGet s._worlds k
  let row ← jsGet world y
  pure (jsGet row x == some ALIVE)

/-- The function `getNeighbourCount(y, x)` (lines 209-225). -/
def getNeighbourCount (s : State) (y x : Nat) : Option Nat :=
  [(y : Int) - 1, (y : Int), (y : Int) + 1].foldlM (fun count i =>
    if i < 0 ∨ i ≥ (HEIGHT : Int) then pure count
    else
      [(x : Int) - 1, (x : Int), (x : Int) + 1].foldlM (fun count j =>
        if j < 0 ∨ j ≥ (WIDTH : Int) then pure count
        else if i = (y : Int) ∧ j = (x : Int) then pure count
        else do
          let alive ← cellIsAlive s s._curDrawWorld i.toNat j.toNat
          pure (if alive then count + 1 else count)) count) 0

/-- The function `update()` (lines 191-207). -/
def update (s : State) : Option State := do
  let cur := s._curDrawWorld
  let next := (s._curDrawWorld + 1) % BUFFERS
  let s1 ← (List.range HEIGHT).foldlM (fun s y =>
    (List.range WIDTH).foldlM (fun s x => do
      let n ← getNeighbourCount s y x
      let alive ← cellIsAlive s cur y x
      if alive then
        setCell s next y x (if n = 2 ∨ n = 3 then ALIVE else DEAD)
      else
        setCell s next y x (if n = 3 then ALIVE else DEAD)) s) s
  pure { s1 with _curDrawWorld := (s1._curDrawWorld + 1) % BUFFERS }

/-- The function `createGlider(x, y)` (lines 236-242). -/
def createGlider (s : State) (x y : Nat) : Option State := do
  let s ← setCell s s._curDrawWorld y (x + 1) ALIVE
  let s ← setCell s s._curDrawWorld (y + 1) (x + 2) ALIVE
  let s ← setCell s s._curDrawWorld (y + 2) x ALIVE
  let s ← setCell s s._curDrawWorld (y + 2) (x + 1) ALIVE
  setCell s s._curDrawWorld (y + 2) (x + 2) ALIVE

/-- The function `draw()` (lines 163-189): the cells painted are those of the current
world that are `ALIVE`, row by row. -/
def draw (s : State) : Option State := do
  let frame ← (List.range HEIGHT).foldlM (fun frame y =>
    (List.range WIDTH).foldlM (fun frame x => do
      let alive ← cellIsAlive s s._curDrawWorld y x
      pure (if alive then frame ++ [(x, y)] else frame)) frame) ([] : Frame)
  pure { s with frames := s.frames ++ [frame] }

/-! ## UI functions (gol.js lines 46-94) -/

/-- The function `step()` (lines 64-69). -/
def step (s : State) : Option State := do
  let s ← draw s
  update s

/-- The function `start()` (lines 46-53). -/
def start (s : State) : Option State :=
  if s._isRunning then pure s
  else do
    let s ← step { s with _isRunning := true }
    let (s, h) := setInterval s UPDATE_TIME
    pure { s with _interval := h }

/-- The function `stop()` (lines 55-62). -/
def stop (s : State) : Option State :=
  if !s._isRunning then pure s
  else
    let s := clearInterval s s._interval
    pure { s with _interval := TimerHandle.null, _isRunning := false }

/-- The number of iterations of the loop of `populateRandom`, whose bound is the double
product `WIDTH * HEIGHT * 0.3`. -/
def randomCount : Nat := (Double.mul (Double.ofNat (WIDTH * HEIGHT)) dbl0_3).ceil

/-- The clear-and-place phase of `populateRandom()` (lines 72-75); `rnd k` is the result
of the `k`-th call of `Math.random()`, the row index being drawn before the column
index. -/
def seedRandom (rnd : Nat → Double) (s : State) : Option State := do
  let world ← jsGet s._worlds s._curDrawWorld
  let s := { s with _worlds := jsSet s._worlds s._curDrawWorld (emptyWorld world) }
  (List.range randomCount).foldlM (fun s i =>
    setCell s s._curDrawWorld
      (Double.mul (rnd (2 * i)) (Double.ofNat HEIGHT)).floor
      (Double.mul (rnd (2 * i + 1)) (Double.ofNat WIDTH)).floor ALIVE) s

/-- The function `populateRandom()` (lines 71-78). -/
def populateRandom (rnd : Nat → Double) (s : State) : Option State := do
  let s ← seedRandom rnd s
  step s

/-- The constant `numGliders` (line 83); the quotient `WIDTH / 5` is exact. -/
def numGliders : Nat := min 3 (WIDTH / 5)

/-- The constant `bucketSize` (line 84): the floor of the double quotient, which is the
integer quotient. -/
def bucketSize : Nat := WIDTH / numGliders

/-- The origin `x` of glider `i` (line 87), from the result `r` of `Math.random()`. -/
def gliderX (r : Double) (i : Nat) : Nat :=
  (Double.mul r (Double.ofNat (bucketSize - 6))).floor + i * bucketSize

/-- The origin `y` of a glider (line 88), from the result `r` of `Math.random()`;
`WIDTH / 2` is the double `12.5`. -/
def gliderY (r : Double) : Nat :=
  (Double.mul r ⟨WIDTH, 1⟩).floor

/-- The clear-and-place phase of `populateGliders()` (lines 81-91). -/
def seedGliders (rnd : Nat → Double) (s : State) : Option State := do
  let world ← jsGet s._worlds s._curDrawWorld
  let s := { s with _worlds := jsSet s._worlds s._curDrawWorld (emptyWorld world) }
  (List.range numGliders).foldlM (fun s i =>
    createGlider s (gliderX (rnd (2 * i)) i) (gliderY (rnd (2 * i + 1)))) s

/-- The function `populateGliders()` (lines 80-94). -/
def populateGliders (rnd : Nat → Double) (s : State) : Option State := do
  let s ← seedGliders rnd s
  step s

/-! ## Grids as functions, and well-formed states -/

/-- The value `world[y][x]`, `none` when the row or the cell is `undefined`. -/
def cellAt (w : World) (y x : Nat) : Option Nat :=
  (jsGet w y).bind (fun row => jsGet row x)

/-- The element is defined (not a hole) and satisfies `p`. -/
def definedAnd {α : Type} (p : α → Bool) (o : Option α) : Bool :=
  match o with
  | some v => p v
  | none => false

/-- The row has exactly `WIDTH` cells, each `DEAD` or `ALIVE`. -/
def rowOk (r : Row) : Bool :=
  r.length == WIDTH && r.all (definedAnd (fun v => v == DEAD || v == ALIVE))

/-- The world has exactly `HEIGHT` rows, each of exactly `WIDTH` cells `DEAD` or `ALIVE`. -/
def worldOk (w : World) : Bool :=
  w.length == HEIGHT && w.all (definedAnd rowOk)

/-- The state is well formed: `BUFFERS` buffers, each a well-formed world, and a current
index below `BUFFERS`. -/
def stateOk (s : State) : Bool :=
  s._worlds.length == BUFFERS && s._worlds.all (definedAnd worldOk)
    && decide (s._curDrawWorld < BUFFERS)

/-- One if the condition holds and the cell `(i, j)` of the world is `ALIVE`, else zero. -/
def aliveCount (w : World) (c : Bool) (i j : Nat) : Nat :=
  if c && (cellAt w i j == some ALIVE) then 1 else 0

/-- The neighbour count of cell `(y, x)` as a function of the world: the eight
neighbours in the order the loops of `getNeighbourCount` visit them, a neighbour outside
the grid counting for nothing. -/
def neighbourCount (w : World) (y x : Nat) : Nat :=
  aliveCount w (decide (0 < y) && decide (0 < x)) (y - 1) (x - 1)
  + aliveCount w (decide (0 < y)) (y - 1) x
  + aliveCount w (decide (0 < y) && decide (x + 1 < WIDTH)) (y - 1) (x + 1)
  + aliveCount w (decide (0 < x)) y (x - 1)
  + aliveCount w (decide (x + 1 < WIDTH)) y (x + 1)
  + aliveCount w (decide (y + 1 < HEIGHT) && decide (0 < x)) (y + 1) (x - 1)
  + aliveCount w (decide (y + 1 < HEIGHT)) (y + 1) x
  + aliveCount w (decide (y + 1 < HEIGHT) && decide (x + 1 < WIDTH)) (y + 1) (x + 1)

/-- The value `update` writes for a cell, from whether it is alive and its neighbour
count (lines 198-202). -/
def nextCell (alive : Bool) (n : Nat) : Nat :=
  if alive then (if n = 2 ∨ n = 3 then ALIVE else DEAD)
  else (if n = 3 then ALIVE else DEAD)

/-- The next generation of a world, as a function of the world. -/
def nextGen (w : World) : World :=
  (List.range HEIGHT).map (fun y => some ((List.range WIDTH).map (fun x =>
    some (nextCell (cellAt w y x == some ALIVE) (neighbourCount w y x)))))

/-- The number of positions `(i, j)` of the grid with `|i - y| ≤ 1`, `|j - x| ≤ 1`,
`(i, j) ≠ (y, x)`, whose cell is `ALIVE`: the clipped Moore neighbourhood count, as the
specification words it. -/
def mooreCount (w : World) (y x : Nat) : Nat :=
  ((Finset.range HEIGHT ×ˢ Finset.range WIDTH).filter (fun p =>
    |(p.1 : Int) - (y : Int)| ≤ 1 ∧ |(p.2 : Int) - (x : Int)| ≤ 1 ∧ p ≠ (y, x)
      ∧ cellAt w p.1 p.2 = some ALIVE)).card

/-- The state with given worlds and everything else as in `s`. -/
def withWorlds (s : State) (ws : JsArray World) : State := { s with _worlds := ws }

/-! ## Initialisation (gol.js lines 151-155) -/

/-- The array `_worlds` after the loop of `init` that creates the empty worlds. -/
def createWorlds : JsArray World :=
  (List.range BUFFERS).foldl (fun worlds i => jsSet worlds i (emptyWorld [])) []

/-- The state `init` has built when it calls `populateRandom`: empty worlds, the first
being current, nothing running, no timer, nothing drawn. -/
def initState : State :=
  { _worlds := createWorlds, _curDrawWorld := 0, _isRunning := false,
    _interval := TimerHandle.undefined, timers := [], nextTimerId := 1, frames := [] }

/-- The initial state with its current world holding only the two live cells
`(row 0, col 1)` and `(row 1, col 0)`. -/
def cornerState : Option State :=
  (setCell initState 0 0 1 ALIVE).bind (fun s => setCell s 0 1 0 ALIVE)

/-! ## Definitions used in the statements and the proofs -/

structure RowWF (r : Row) : Prop where
  len : r.length = WIDTH
  cells : ∀ x, x < WIDTH → jsGet r x = some DEAD ∨ jsGet r x = some ALIVE

structure WorldWF (w : World) : Prop where
  len : w.length = HEIGHT
  rows : ∀ y, y < HEIGHT → ∃ r, jsGet w y = some r ∧ RowWF r

structure StateWF (s : State) : Prop where
  len : s._worlds.length = BUFFERS
  bufs : ∀ k, k < BUFFERS → ∃ w, jsGet s._worlds k = some w ∧ WorldWF w
  cur : s._curDrawWorld < BUFFERS

/-- The body of the inner loop of `getNeighbourCount`, at row `i` and column `j`. -/
def neighbourCell (s : State) (y x : Nat) (i : Int) (count : Nat) (j : Int) : Option Nat :=
  if j < 0 ∨ j ≥ (WIDTH : Int) then pure count
  else if i = (y : Int) ∧ j = (x : Int) then pure count
  else do
    let alive ← cellIsAlive s s._curDrawWorld i.toNat j.toNat
    pure (if alive then count + 1 else count)

/-- The body of the outer loop of `getNeighbourCount`, at row `i`. -/
def neighbourRow (s : State) (y x : Nat) (count : Nat) (i : Int) : Option Nat :=
  if i < 0 ∨ i ≥ (HEIGHT : Int) then pure count
  else [(x : Int) - 1, (x : Int), (x : Int) + 1].foldlM (neighbourCell s y x i) count

/-- The body of the inner loop of `update`, at row `y` and column `x`. -/
def updateCell (cur next y : Nat) (s : State) (x : Nat) : Option State := do
  let n ← getNeighbourCount s y x
  let alive ← cellIsAlive s cur y x
  if alive then
    setCell s next y x (if n = 2 ∨ n = 3 then ALIVE else DEAD)
  else
    setCell s next y x (if n = 3 then ALIVE else DEAD)

/-- The body of the outer loop of `update`, at row `y`. -/
def updateRow (cur next : Nat) (s : State) (y : Nat) : Option State :=
  (List.range WIDTH).foldlM (updateCell cur next y) s

/-- The cell `update` computes for position `(y, x)` of world `w`. -/
def nextCellAt (w : World) (y x : Nat) : Nat :=
  nextCell (cellAt w y x == some ALIVE) (neighbourCount w y x)

/-- Invariant of the loops of `update` started in `s` with current world `w` and target
index `next`, after `m` cells (in row-major order) have been written, the state being `t`. -/
structure UpdInv (s : State) (w : World) (next m : Nat) (t : State) : Prop where
  shell : withWorlds t s._worlds = s
  len : t._worlds.length = s._worlds.length
  frame : ∀ k, k ≠ next → jsGet t._worlds k = jsGet s._worlds k
  target : ∃ w2, jsGet t._worlds next = some w2 ∧ w2.length = HEIGHT ∧
    ∀ y, y < HEIGHT → ∃ r, jsGet w2 y = some r ∧ r.length = WIDTH ∧
      ∀ x, x < WIDTH → y * WIDTH + x < m → jsGet r x = some (nextCellAt w y x)

/-- The state `update` returns, when the buffers at the current and the next index are
well formed: the next buffer holds the next generation of the current world, the current
index has advanced, and nothing else has changed. -/
def updated (s : State) (w : World) : State :=
  { s with _worlds := jsSet s._worlds ((s._curDrawWorld + 1) % BUFFERS) (nextGen w),
           _curDrawWorld := (s._curDrawWorld + 1) % BUFFERS }

/-- The indicator of the positions `mooreCount` counts. -/
def mooreInd (w : World) (y x i j : Nat) : Nat :=
  if (i ≤ y + 1 ∧ y ≤ i + 1) ∧ (j ≤ x + 1 ∧ x ≤ j + 1) ∧ (i, j) ≠ (y, x)
      ∧ cellAt w i j = some ALIVE then 1 else 0

/-- A row of `WIDTH` cells `DEAD`. -/
def deadRow : Row := List.replicate WIDTH (some DEAD)

/-- The world of `HEIGHT` rows of `WIDTH` cells `DEAD`. -/
def deadWorld : World := List.replicate HEIGHT (some deadRow)

/-- The cells `draw` paints for world `w`, in painting order. -/
def frameOf (w : World) : Frame :=
  (List.range HEIGHT).foldl (fun frame y =>
    (List.range WIDTH).foldl (fun frame x =>
      if cellAt w y x == some ALIVE then frame ++ [(x, y)] else frame) frame) []

/-- The state after `draw()` of a state whose current world is `w`. -/
def drawn (s : State) (w : World) : State :=
  { s with frames := s.frames ++ [frameOf w] }

/-- The state after `step()` of a state whose current world is `w`. -/
def stepped (s : State) (w : World) : State := updated (drawn s w) w

/-- Everything but the worlds is the same in `t` as in `s`. -/
def SameShell (s t : State) : Prop := withWorlds t s._worlds = s

/-- The result of `n` successive calls of `update()`. -/
def iterUpdate : Nat → State → Option State
  | 0, s => some s
  | n + 1, s => (update s).bind (iterUpdate n)

/-- The world after the assignment `world[y][x] = v` (unchanged when row `y` is
`undefined`, where the assignment throws). -/
def setAt (w : World) (y x v : Nat) : World :=
  match jsGet w y with
  | some r => jsSet w y (jsSet r x v)
  | none => w

/-- The world after marking `ALIVE`, in order, the cells `(row, column)` of a list. -/
def stampAll (ps : List (Nat × Nat)) (w : World) : World :=
  ps.foldl (fun w p => setAt w p.1 p.2 ALIVE) w

/-- The cells `(row, column)` that `createGlider(x, y)` marks, in order. -/
def gliderCells (x y : Nat) : List (Nat × Nat) :=
  [(y, x + 1), (y + 1, x + 2), (y + 2, x), (y + 2, x + 1), (y + 2, x + 2)]

/-- The cells `(row, column)` the loop of `populateRandom` marks, in order. -/
def randomCells (rnd : Nat → Double) : List (Nat × Nat) :=
  (List.range randomCount).map (fun i =>
    ((Double.mul (rnd (2 * i)) (Double.ofNat HEIGHT)).floor,
     (Double.mul (rnd (2 * i + 1)) (Double.ofNat WIDTH)).floor))

/-- The cells `(row, column)` the loop of `populateGliders` marks, in order. -/
def gliderSeedCells (rnd : Nat → Double) : List (Nat × Nat) :=
  gliderCells (gliderX (rnd 0) 0) (gliderY (rnd 1))
    ++ (gliderCells (gliderX (rnd 2) 1) (gliderY (rnd 3))
    ++ gliderCells (gliderX (rnd 4) 2) (gliderY (rnd 5)))

/-- The state after a seeding phase that marked the cells `ps`: the current world is the
dead world with those cells `ALIVE`, nothing else has changed. -/
def seeded (s : State) (ps : List (Nat × Nat)) : State :=
  withWorlds s (jsSet s._worlds s._curDrawWorld (stampAll ps deadWorld))

/-- A stream of `Math.random()` results under which draw `2 i` gives row
`(i / 25) mod 25` and draw `2 i + 1` gives column `i mod 25`: the result for index `a`
is the double `floor((2 a + 1) * 1024 / 50) / 1024`, which lies in `[a / 25, (a + 1) / 25)`. -/
def spreadRnd (k : Nat) : Double :=
  ⟨((2 * (if k % 2 = 0 then (k / 2 / 25) % 25 else (k / 2) % 25) + 1) * 1024) / 50, 10⟩

/-- The number of `ALIVE` cells of the grid. -/
def liveCount (w : World) : Nat :=
  ((List.range HEIGHT).map (fun y =>
    ((List.range WIDTH).filter (fun x => cellAt w y x == some ALIVE)).length)).sum

/-- The number of `ALIVE` cells of the current grid after the clear-and-place phase of
`populateRandom`. -/
def seededLiveCount (rnd : Nat → Double) (s : State) : Option Nat :=
  (seedRandom rnd s).bind (fun s' => (jsGet s'._worlds s'._curDrawWorld).map liveCount)

/-- One call of an entry point of the program: a button of the page, or (for `step`) the
periodic timer firing. `Math.random()` results are given to the two seeding calls. -/
inductive Op where
  | step
  | start
  | stop
  | populateRandom (rnd : Nat → Double)
  | populateGliders (rnd : Nat → Double)

/-- The effect of a call. -/
def Op.run : Op → State → Option State
  | Op.step, s => Gol.step s
  | Op.start, s => Gol.start s
  | Op.stop, s => Gol.stop s
  | Op.populateRandom rnd, s => Gol.populateRandom rnd s
  | Op.populateGliders rnd, s => Gol.populateGliders rnd s

/-- The `Math.random()` results given to a call all lie in `[0, 1)`. -/
def Op.Valid : Op → Prop
  | Op.populateRandom rnd => ∀ k, (rnd k).IsUnit
  | Op.populateGliders rnd => ∀ k, (rnd k).IsUnit
  | _ => True

/-- The states reachable from the state `init` builds (all buffers cleared, Idle, no
timer) by any sequence of calls. -/
inductive Reachable : State → Prop where
  | init : Reachable initState
  | call (op : Op) (s s' : State) : Reachable s → op.Valid → op.run s = some s' → Reachable s'

/-- The timers registered agree with the run flag: none when Idle; when Running, exactly
the one whose id is in `_interval`, of period `UPDATE_TIME`. -/
def TimerInv (s : State) : Prop :=
  (s._isRunning = false ∧ s.timers = [])
  ∨ (s._isRunning = true ∧ ∃ n, s._interval = TimerHandle.id n ∧ s.timers = [⟨n, UPDATE_TIME⟩])

/-- The pattern has a cell at the relative position `(a, b)`. -/
def pat (cells : List (Nat × Nat)) (a b : Int) : Bool :=
  cells.any (fun p => decide (a = (p.1 : Int)) && decide (b = (p.2 : Int)))

/-- The number of cells of the pattern among the eight neighbours of `(a, b)`. -/
def patCount (cells : List (Nat × Nat)) (a b : Int) : Nat :=
  (if pat cells (a - 1) (b - 1) then 1 else 0) + (if pat cells (a - 1) b then 1 else 0)
  + (if pat cells (a - 1) (b + 1) then 1 else 0) + (if pat cells a (b - 1) then 1 else 0)
  + (if pat cells a (b + 1) then 1 else 0) + (if pat cells (a + 1) (b - 1) then 1 else 0)
  + (if pat cells (a + 1) b then 1 else 0) + (if pat cells (a + 1) (b + 1) then 1 else 0)

/-- The glider as `createGlider` stamps it, and its four successive generations. -/
def gliderGen : Nat → List (Nat × Nat)
  | 0 => [(0, 1), (1, 2), (2, 0), (2, 1), (2, 2)]
  | 1 => [(1, 0), (1, 2), (2, 1), (2, 2), (3, 1)]
  | 2 => [(1, 2), (2, 0), (2, 2), (3, 1), (3, 2)]
  | 3 => [(1, 1), (2, 2), (2, 3), (3, 1), (3, 2)]
  | _ => [(1, 2), (2, 3), (3, 1), (3, 2), (3, 3)]

/-- The cells of a pattern placed at origin `(x, y)`. -/
def placed (cells : List (Nat × Nat)) (x y : Nat) : List (Nat × Nat) :=
  cells.map (fun p => (y + p.1, x + p.2))

/-- The cell at the integer position `(i, j)` is inside the grid and `ALIVE`. -/
def aliveZ (w : World) (i j : Int) : Bool :=
  decide (0 ≤ i) && decide (i < (HEIGHT : Int)) && decide (0 ≤ j) && decide (j < (WIDTH : Int))
    && (cellAt w i.toNat j.toNat == some ALIVE)

/-- All the cells of the pattern lie in the box of side 4 at the origin. -/
def inBox (cells : List (Nat × Nat)) : Bool :=
  cells.all (fun p => decide (p.1 ≤ 3) && decide (p.2 ≤ 3))

/-! ## JavaScript arrays: reads after writes -/

theorem jsGet_of_le {α : Type} (a : JsArray α) (i : Nat) (h : a.length ≤ i) :
    jsGet a i = none := by
  unfold jsGet
  rw [List.getElem?_eq_none h]
  rfl

theorem length_jsSet {α : Type} (a : JsArray α) (i : Nat) (v : α) :
    (jsSet a i v).length = max a.length (i + 1) := by
  unfold jsSet
  split
  · simp only [List.length_set]; omega
  · simp only [List.length_append, List.length_replicate, List.length_singleton]; omega

theorem length_jsSet_of_lt {α : Type} (a : JsArray α) (i : Nat) (v : α) (h : i < a.length) :
    (jsSet a i v).length = a.length := by
  rw [length_jsSet]; omega

theorem jsGet_jsSet_self {α : Type} (a : JsArray α) (i : Nat) (v : α) :
    jsGet (jsSet a i v) i = some v := by
  unfold jsGet jsSet
  split
  · rename_i h
    simp [List.getElem?_set, h]
  · rename_i h
    have h1 : (a ++ List.replicate (i - a.length) none).length = i := by
      simp only [List.length_append, List.length_replicate]; omega
    rw [List.getElem?_append_right (by omega)]
    simp [h1]

theorem jsGet_jsSet_ne {α : Type} (a : JsArray α) (i j : Nat) (v : α) (h : j ≠ i) :
    jsGet (jsSet a i v) j = jsGet a j := by
  unfold jsGet jsSet
  split
  · rw [List.getElem?_set_ne (Ne.symm h)]
  · rename_i hi
    by_cases hj : j < a.length
    · rw [List.append_assoc, List.getElem?_append_left hj]
    · rw [List.getElem?_eq_none (Nat.le_of_not_lt hj)]
      by_cases hji : j < i
      · rw [List.getElem?_append_left (by simp only [List.length_append, List.length_replicate]; omega),
          List.getElem?_append_right (by omega), List.getElem?_replicate]
        have : j - a.length < i - a.length := by omega
        simp [this]
      · rw [List.getElem?_eq_none (by
          simp only [List.length_append, List.length_replicate, List.length_singleton]; omega)]

theorem jsGet_jsSet {α : Type} (a : JsArray α) (i j : Nat) (v : α) :
    jsGet (jsSet a i v) j = if j = i then some v else jsGet a j := by
  split
  · rename_i h; subst h; exact jsGet_jsSet_self a j v
  · rename_i h; exact jsGet_jsSet_ne a i j v h

theorem jsArray_ext {α : Type} (a b : JsArray α) (hlen : a.length = b.length)
    (h : ∀ i, i < a.length → jsGet a i = jsGet b i) : a = b := by
  apply List.ext_getElem hlen
  intro i h1 h2
  have := h i h1
  unfold jsGet at this
  rw [List.getElem?_eq_getElem h1, List.getElem?_eq_getElem h2] at this
  simpa using this

/-! ## Well-formedness, in terms of reads -/

theorem jsGet_eq_getElem {α : Type} (a : JsArray α) (i : Nat) (h : i < a.length) :
    jsGet a i = a[i] := by
  unfold jsGet
  rw [List.getElem?_eq_getElem h]
  rfl

theorem all_defined_iff {α : Type} (a : JsArray α) (p : α → Bool) :
    a.all (definedAnd p) = true
    ↔ ∀ i, i < a.length → ∃ v, jsGet a i = some v ∧ p v = true := by
  rw [List.all_eq_true]
  constructor
  · intro h i hi
    have h1 := h a[i] (List.getElem_mem hi)
    rw [jsGet_eq_getElem a i hi]
    cases hv : a[i] with
    | none => rw [hv] at h1; simp [definedAnd] at h1
    | some v => rw [hv] at h1; exact ⟨v, rfl, h1⟩
  · intro h o ho
    obtain ⟨i, hi, rfl⟩ := List.getElem_of_mem ho
    obtain ⟨v, hv, hp⟩ := h i hi
    rw [jsGet_eq_getElem a i hi] at hv
    rw [hv]
    exact hp

theorem rowOk_iff (r : Row) : rowOk r = true ↔ RowWF r := by
  unfold rowOk
  rw [Bool.and_eq_true, all_defined_iff, beq_iff_eq]
  constructor
  · rintro ⟨hl, h⟩
    refine ⟨hl, fun x hx => ?_⟩
    obtain ⟨v, hv, hp⟩ := h x (hl ▸ hx)
    rw [hv]
    simp only [Bool.or_eq_true, beq_iff_eq] at hp
    rcases hp with hp | hp
    · left; rw [hp]
    · right; rw [hp]
  · rintro ⟨hl, h⟩
    refine ⟨hl, fun x hx => ?_⟩
    rcases h x (hl ▸ hx) with hv | hv
    · exact ⟨DEAD, hv, by simp⟩
    · exact ⟨ALIVE, hv, by simp⟩

theorem worldOk_iff (w : World) : worldOk w = true ↔ WorldWF w := by
  unfold worldOk
  rw [Bool.and_eq_true, all_defined_iff, beq_iff_eq]
  constructor
  · rintro ⟨hl, h⟩
    refine ⟨hl, fun y hy => ?_⟩
    obtain ⟨r, hr, hp⟩ := h y (hl ▸ hy)
    exact ⟨r, hr, (rowOk_iff r).1 hp⟩
  · rintro ⟨hl, h⟩
    refine ⟨hl, fun y hy => ?_⟩
    obtain ⟨r, hr, hp⟩ := h y (hl ▸ hy)
    exact ⟨r, hr, (rowOk_iff r).2 hp⟩

theorem stateOk_iff (s : State) : stateOk s = true ↔ StateWF s := by
  unfold stateOk
  rw [Bool.and_eq_true, Bool.and_eq_true, all_defined_iff, beq_iff_eq, decide_eq_true_iff]
  constructor
  · rintro ⟨⟨hl, h⟩, hc⟩
    refine ⟨hl, fun k hk => ?_, hc⟩
    obtain ⟨w, hw, hp⟩ := h k (hl ▸ hk)
    exact ⟨w, hw, (worldOk_iff w).1 hp⟩
  · rintro ⟨hl, h, hc⟩
    refine ⟨⟨hl, fun k hk => ?_⟩, hc⟩
    obtain ⟨w, hw, hp⟩ := h k (hl ▸ hk)
    exact ⟨w, hw, (worldOk_iff w).2 hp⟩

/-! ## The neighbour count is a function of the current world -/

theorem getNeighbourCount_loops (s : State) (y x : Nat) :
    getNeighbourCount s y x
      = [(y : Int) - 1, (y : Int), (y : Int) + 1].foldlM (neighbourRow s y x) 0 := rfl

theorem cellIsAlive_eq (s : State) (k i j : Nat) (w : World) (r : Row)
    (hw : jsGet s._worlds k = some w) (hr : jsGet w i = some r) :
    cellIsAlive s k i j = some (cellAt w i j == some ALIVE) := by
  simp [cellIsAlive, cellAt, hw, hr]

theorem aliveCount_false (w : World) (i j : Nat) : aliveCount w false i j = 0 := by
  simp [aliveCount]

theorem aliveCount_congr (w : World) (c1 c2 : Bool) (i1 j1 i2 j2 : Nat) (hc : c1 = c2)
    (h : c1 = true → i1 = i2 ∧ j1 = j2) :
    aliveCount w c1 i1 j1 = aliveCount w c2 i2 j2 := by
  subst hc
  cases c1 with
  | false => simp [aliveCount]
  | true => obtain ⟨h1, h2⟩ := h rfl; rw [h1, h2]

theorem neighbourCell_eq (s : State) (w : World) (y x : Nat) (i j : Int) (count : Nat)
    (hw : jsGet s._worlds s._curDrawWorld = some w)
    (hrows : ∀ i, i < HEIGHT → ∃ r, jsGet w i = some r)
    (hi : 0 ≤ i) (hi2 : i < (HEIGHT : Int)) :
    neighbourCell s y x i count j
      = some (count + aliveCount w (decide (0 ≤ j) && decide (j < (WIDTH : Int))
          && !(decide (i = (y : Int)) && decide (j = (x : Int)))) i.toNat j.toNat) := by
  unfold neighbourCell
  by_cases h1 : j < 0 ∨ j ≥ (WIDTH : Int)
  · rw [if_pos h1]
    have : (decide (0 ≤ j) && decide (j < (WIDTH : Int))) = false := by
      rcases h1 with h1 | h1
      · simp [h1]
      · simp [h1]
    rw [this, Bool.false_and, aliveCount_false]; rfl
  · rw [if_neg h1]
    have h2 : 0 ≤ j ∧ j < (WIDTH : Int) := by omega
    by_cases h3 : i = (y : Int) ∧ j = (x : Int)
    · rw [if_pos h3]
      have : (!(decide (i = (y : Int)) && decide (j = (x : Int)))) = false := by
        simp [h3.1, h3.2]
      rw [this, Bool.and_false, aliveCount_false]; rfl
    · rw [if_neg h3]
      obtain ⟨r, hr⟩ := hrows i.toNat (by omega)
      rw [cellIsAlive_eq s _ _ _ w r hw hr]
      have hc : (decide (0 ≤ j) && decide (j < (WIDTH : Int))
          && !(decide (i = (y : Int)) && decide (j = (x : Int)))) = true := by
        simp only [Bool.and_eq_true, decide_eq_true_eq, Bool.not_eq_true', Bool.and_eq_false_iff,
          decide_eq_false_iff_not]
        refine ⟨⟨h2.1, h2.2⟩, ?_⟩
        by_cases h4 : i = (y : Int)
        · right; intro h5; exact h3 ⟨h4, h5⟩
        · left; exact h4
      rw [hc]
      simp only [aliveCount, Bool.true_and, Option.pure_def, Option.bind_eq_bind, Option.some_bind]
      split <;> rfl

theorem neighbourRow_skip (s : State) (y x : Nat) (i : Int) (count : Nat)
    (hi : i < 0 ∨ i ≥ (HEIGHT : Int)) : neighbourRow s y x count i = some count := by
  unfold neighbourRow
  rw [if_pos hi]; rfl

theorem neighbourRow_eq (s : State) (w : World) (y x : Nat) (i : Int) (count : Nat)
    (hw : jsGet s._worlds s._curDrawWorld = some w)
    (hrows : ∀ i, i < HEIGHT → ∃ r, jsGet w i = some r)
    (hi : 0 ≤ i) (hi2 : i < (HEIGHT : Int)) (hx : x < WIDTH) :
    neighbourRow s y x count i
      = some (count + aliveCount w (decide (0 < x)) i.toNat (x - 1)
          + aliveCount w (!decide (i = (y : Int))) i.toNat x
          + aliveCount w (decide (x + 1 < WIDTH)) i.toNat (x + 1)) := by
  unfold neighbourRow
  rw [if_neg (by omega)]
  simp only [List.foldlM_cons, List.foldlM_nil, neighbourCell_eq s w y x i _ _ hw hrows hi hi2,
    Option.bind_eq_bind, Option.some_bind, Option.pure_def]
  congr 2
  · congr 1
    · congr 1
      apply aliveCount_congr
      · rw [Bool.eq_iff_iff]
        simp only [Bool.and_eq_true, decide_eq_true_eq, Bool.not_eq_true', Bool.and_eq_false_iff,
          decide_eq_false_iff_not]
        omega
      · intro h
        simp only [Bool.and_eq_true, decide_eq_true_eq] at h
        omega
    · apply aliveCount_congr
      · rw [Bool.eq_iff_iff]
        simp only [Bool.and_eq_true, decide_eq_true_eq, Bool.not_eq_true', Bool.and_eq_false_iff,
          decide_eq_false_iff_not]
        constructor
        · rintro ⟨_, h | h⟩
          · exact h
          · exact absurd trivial h
        · intro h
          exact ⟨⟨by omega, by omega⟩, Or.inl h⟩
      · intro _
        exact ⟨rfl, by omega⟩
  · apply aliveCount_congr
    · rw [Bool.eq_iff_iff]
      simp only [Bool.and_eq_true, decide_eq_true_eq, Bool.not_eq_true', Bool.and_eq_false_iff,
        decide_eq_false_iff_not]
      omega
    · intro _
      exact ⟨rfl, by omega⟩

/-- Closed form of `getNeighbourCount`: when the rows of the current world exist, the
count is `neighbourCount` of the current world. -/
theorem getNeighbourCount_eq (s : State) (w : World) (y x : Nat)
    (hw : jsGet s._worlds s._curDrawWorld = some w)
    (hrows : ∀ i, i < HEIGHT → ∃ r, jsGet w i = some r)
    (hy : y < HEIGHT) (hx : x < WIDTH) :
    getNeighbourCount s y x = some (neighbourCount w y x) := by
  rw [getNeighbourCount_loops]
  have hmid : ∀ c, neighbourRow s y x c (y : Int)
      = some (c + aliveCount w (decide (0 < x)) y (x - 1)
          + aliveCount w (decide (x + 1 < WIDTH)) y (x + 1)) := by
    intro c
    rw [neighbourRow_eq s w y x (y : Int) c hw hrows (by omega) (by omega) hx]
    simp [aliveCount_false]
  have hup : ∀ c, neighbourRow s y x c ((y : Int) - 1)
      = some (c + aliveCount w (decide (0 < y) && decide (0 < x)) (y - 1) (x - 1)
          + aliveCount w (decide (0 < y)) (y - 1) x
          + aliveCount w (decide (0 < y) && decide (x + 1 < WIDTH)) (y - 1) (x + 1)) := by
    intro c
    by_cases h0 : 0 < y
    · rw [neighbourRow_eq s w y x ((y : Int) - 1) c hw hrows (by omega) (by omega) hx]
      have e : ((y : Int) - 1).toNat = y - 1 := by omega
      have e2 : (!decide ((y : Int) - 1 = (y : Int))) = true := by simp
      simp [e, e2, h0]
    · rw [neighbourRow_skip s y x _ c (by omega)]
      simp [h0, aliveCount_false]
  have hdown : ∀ c, neighbourRow s y x c ((y : Int) + 1)
      = some (c + aliveCount w (decide (y + 1 < HEIGHT) && decide (0 < x)) (y + 1) (x - 1)
          + aliveCount w (decide (y + 1 < HEIGHT)) (y + 1) x
          + aliveCount w (decide (y + 1 < HEIGHT) && decide (x + 1 < WIDTH)) (y + 1) (x + 1)) := by
    intro c
    by_cases h1 : y + 1 < HEIGHT
    · rw [neighbourRow_eq s w y x ((y : Int) + 1) c hw hrows (by omega) (by omega) hx]
      have e : ((y : Int) + 1).toNat = y + 1 := by omega
      have e2 : (!decide ((y : Int) + 1 = (y : Int))) = true := by simp
      simp [e, e2, h1]
    · rw [neighbourRow_skip s y x _ c (by omega)]
      simp [h1, aliveCount_false]
  simp only [List.foldlM_cons, List.foldlM_nil, hmid, hup, hdown, Option.bind_eq_bind,
    Option.some_bind, Option.pure_def]
  congr 1
  unfold neighbourCount
  omega

/-! ## Loops over `List.range` -/

theorem foldlM_range_inv {σ : Type} (f : σ → Nat → Option σ) (P : Nat → σ → Prop) (n : Nat)
    (s0 : σ) (h0 : P 0 s0)
    (hstep : ∀ i s, i < n → P i s → ∃ s', f s i = some s' ∧ P (i + 1) s') :
    ∃ s', (List.range n).foldlM f s0 = some s' ∧ P n s' := by
  induction n with
  | zero => exact ⟨s0, rfl, h0⟩
  | succ n ih =>
    obtain ⟨s1, h1, hP1⟩ := ih (fun i s hi hP => hstep i s (by omega) hP)
    obtain ⟨s2, h2, hP2⟩ := hstep n s1 (by omega) hP1
    refine ⟨s2, ?_, hP2⟩
    rw [List.range_succ, List.foldlM_append, h1]
    simp only [Option.bind_eq_bind, Option.some_bind, List.foldlM_cons, List.foldlM_nil, h2]
    rfl

theorem jsGet_lt_of_some {α : Type} (a : JsArray α) (i : Nat) (v : α) (h : jsGet a i = some v) :
    i < a.length := by
  by_contra hlt
  rw [jsGet_of_le a i (by omega)] at h
  cases h

theorem jsGet_map_range {α : Type} (f : Nat → α) (n i : Nat) :
    jsGet ((List.range n).map (fun k => some (f k))) i = if i < n then some (f i) else none := by
  unfold jsGet
  split
  · rename_i h
    rw [List.getElem?_eq_getElem (by simpa using h)]
    simp
  · rename_i h
    rw [List.getElem?_eq_none (by simpa using h)]
    rfl

theorem setCell_eq (s : State) (k y x v : Nat) (w : World) (r : Row)
    (hw : jsGet s._worlds k = some w) (hr : jsGet w y = some r) :
    setCell s k y x v = some (withWorlds s (jsSet s._worlds k (jsSet w y (jsSet r x v)))) := by
  simp [setCell, withWorlds, hw, hr]

/-! ## The update loop -/

theorem update_loops (s : State) :
    update s = ((List.range HEIGHT).foldlM
      (updateRow s._curDrawWorld ((s._curDrawWorld + 1) % BUFFERS)) s).bind
        (fun s1 => some { s1 with _curDrawWorld := (s1._curDrawWorld + 1) % BUFFERS }) := rfl

theorem updateCell_inv (s : State) (w : World) (next y x : Nat) (t : State)
    (hw : jsGet s._worlds s._curDrawWorld = some w)
    (hrows : ∀ i, i < HEIGHT → ∃ r, jsGet w i = some r)
    (hne : s._curDrawWorld ≠ next) (hy : y < HEIGHT) (hx : x < WIDTH)
    (inv : UpdInv s w next (y * WIDTH + x) t) :
    ∃ t', updateCell s._curDrawWorld next y t x = some t' ∧ UpdInv s w next (y * WIDTH + x + 1) t' := by
  obtain ⟨hshell, hlen, hframe, w2, hw2, hw2len, hw2rows⟩ := inv
  have hcur : t._curDrawWorld = s._curDrawWorld := by
    have := congrArg State._curDrawWorld hshell
    simpa [withWorlds] using this
  have hwt : jsGet t._worlds t._curDrawWorld = some w := by
    rw [hcur, hframe _ hne, hw]
  have hwt2 : jsGet t._worlds s._curDrawWorld = some w := by
    rw [hframe _ hne, hw]
  obtain ⟨rw0, hrw0⟩ := hrows y hy
  obtain ⟨r, hr, hrlen, hrcells⟩ := hw2rows y hy
  have hbody : updateCell s._curDrawWorld next y t x
      = setCell t next y x (nextCellAt w y x) := by
    unfold updateCell
    rw [getNeighbourCount_eq t w y x hwt hrows hy hx, cellIsAlive_eq t _ y x w rw0 hwt2 hrw0]
    simp only [Option.bind_eq_bind, Option.some_bind, nextCellAt, nextCell]
    split <;> rfl
  rw [hbody, setCell_eq t next y x _ w2 r hw2 hr]
  refine ⟨_, rfl, ?_, ?_, ?_, ?_⟩
  · exact hshell
  · show (jsSet t._worlds next _).length = _
    rw [length_jsSet_of_lt _ _ _ (jsGet_lt_of_some _ _ _ hw2), hlen]
  · intro k hk
    show jsGet (jsSet t._worlds next _) k = _
    rw [jsGet_jsSet_ne _ _ _ _ hk, hframe k hk]
  · refine ⟨jsSet w2 y (jsSet r x (nextCellAt w y x)), ?_, ?_, ?_⟩
    · show jsGet (jsSet t._worlds next _) next = _
      rw [jsGet_jsSet_self]
    · rw [length_jsSet_of_lt _ _ _ (jsGet_lt_of_some _ _ _ hr), hw2len]
    · intro y' hy'
      rw [jsGet_jsSet]
      by_cases hyy : y' = y
      · subst hyy
        rw [if_pos rfl]
        refine ⟨_, rfl, ?_, ?_⟩
        · rw [length_jsSet_of_lt _ _ _ (by omega), hrlen]
        · intro x' hx' hlt
          rw [jsGet_jsSet]
          by_cases hxx : x' = x
          · subst hxx; rw [if_pos rfl]
          · rw [if_neg hxx]
            exact hrcells x' hx' (by omega)
      · rw [if_neg hyy]
        obtain ⟨r', hr', hr'len, hr'cells⟩ := hw2rows y' hy'
        refine ⟨r', hr', hr'len, ?_⟩
        intro x' hx' hlt
        apply hr'cells x' hx'
        have hW : WIDTH = 25 := rfl
        simp only [hW] at hlt hx hx' ⊢
        omega

theorem updateRow_inv (s : State) (w : World) (next y : Nat) (t : State)
    (hw : jsGet s._worlds s._curDrawWorld = some w)
    (hrows : ∀ i, i < HEIGHT → ∃ r, jsGet w i = some r)
    (hne : s._curDrawWorld ≠ next) (hy : y < HEIGHT)
    (inv : UpdInv s w next (y * WIDTH) t) :
    ∃ t', updateRow s._curDrawWorld next t y = some t' ∧ UpdInv s w next ((y + 1) * WIDTH) t' := by
  unfold updateRow
  have h := foldlM_range_inv (updateCell s._curDrawWorld next y)
    (fun x t => UpdInv s w next (y * WIDTH + x) t) WIDTH t inv
    (fun x t hx hinv => updateCell_inv s w next y x t hw hrows hne hy hx hinv)
  rw [Nat.succ_mul]
  exact h

theorem length_nextGen (w : World) : (nextGen w).length = HEIGHT := by
  simp [nextGen]

theorem jsGet_nextGen (w : World) (y : Nat) (hy : y < HEIGHT) :
    jsGet (nextGen w) y = some ((List.range WIDTH).map (fun x => some (nextCellAt w y x))) := by
  unfold nextGen
  rw [jsGet_map_range (fun y => (List.range WIDTH).map (fun x =>
    some (nextCell (cellAt w y x == some ALIVE) (neighbourCount w y x)))) HEIGHT y, if_pos hy]
  rfl

theorem cellAt_nextGen (w : World) (y x : Nat) (hy : y < HEIGHT) (hx : x < WIDTH) :
    cellAt (nextGen w) y x = some (nextCellAt w y x) := by
  unfold cellAt
  rw [jsGet_nextGen w y hy, Option.some_bind, jsGet_map_range, if_pos hx]

theorem nextCell_cases (a : Bool) (n : Nat) : nextCell a n = DEAD ∨ nextCell a n = ALIVE := by
  unfold nextCell
  split <;> split <;> simp

theorem worldWF_nextGen (w : World) : WorldWF (nextGen w) := by
  refine ⟨length_nextGen w, fun y hy => ⟨_, jsGet_nextGen w y hy, ?_, ?_⟩⟩
  · simp
  · intro x hx
    rw [jsGet_map_range, if_pos hx]
    rcases nextCell_cases (cellAt w y x == some ALIVE) (neighbourCount w y x) with h | h
    · left; unfold nextCellAt; rw [h]
    · right; unfold nextCellAt; rw [h]

/-- Closed form of `update`. -/
theorem update_eq (s : State) (w w2 : World)
    (hw : jsGet s._worlds s._curDrawWorld = some w)
    (hrows : ∀ i, i < HEIGHT → ∃ r, jsGet w i = some r)
    (hne : s._curDrawWorld ≠ (s._curDrawWorld + 1) % BUFFERS)
    (hw2 : jsGet s._worlds ((s._curDrawWorld + 1) % BUFFERS) = some w2)
    (hw2len : w2.length = HEIGHT)
    (hw2rows : ∀ y, y < HEIGHT → ∃ r, jsGet w2 y = some r ∧ r.length = WIDTH) :
    update s = some (updated s w) := by
  have inv0 : UpdInv s w ((s._curDrawWorld + 1) % BUFFERS) (0 * WIDTH) s := by
    refine ⟨rfl, rfl, fun _ _ => rfl, w2, hw2, hw2len, fun y hy => ?_⟩
    obtain ⟨r, hr, hrlen⟩ := hw2rows y hy
    exact ⟨r, hr, hrlen, fun x _ hlt => by omega⟩
  obtain ⟨t, ht, hshell, hlen, hframe, w3, hw3, hw3len, hw3rows⟩ :=
    foldlM_range_inv (updateRow s._curDrawWorld ((s._curDrawWorld + 1) % BUFFERS))
      (fun y t => UpdInv s w ((s._curDrawWorld + 1) % BUFFERS) (y * WIDTH) t) HEIGHT s inv0
      (fun y t hy hinv => updateRow_inv s w _ y t hw hrows hne hy hinv)
  rw [update_loops, ht, Option.some_bind]
  have hw3eq : w3 = nextGen w := by
    apply jsArray_ext
    · rw [hw3len, length_nextGen]
    · intro y hy
      rw [hw3len] at hy
      obtain ⟨r, hr, hrlen, hrcells⟩ := hw3rows y hy
      rw [hr, jsGet_nextGen w y hy]
      congr 1
      apply jsArray_ext
      · simp [hrlen]
      · intro x hx
        rw [hrlen] at hx
        rw [jsGet_map_range, if_pos hx]
        apply hrcells x hx
        have hW : WIDTH = 25 := rfl
        have hH : HEIGHT = 25 := rfl
        simp only [hW, hH] at hx hy ⊢
        omega
  have hworlds : t._worlds = jsSet s._worlds ((s._curDrawWorld + 1) % BUFFERS) (nextGen w) := by
    apply jsArray_ext
    · rw [hlen, length_jsSet_of_lt _ _ _ (jsGet_lt_of_some _ _ _ hw2)]
    · intro k _
      rw [jsGet_jsSet]
      by_cases hk : k = (s._curDrawWorld + 1) % BUFFERS
      · rw [if_pos hk, hk, hw3, hw3eq]
      · rw [if_neg hk, hframe k hk]
  have ht2 : t = withWorlds s t._worlds := by
    rw [← hshell]; rfl
  rw [ht2, hworlds]
  rfl

/-! ## The neighbour count is the clipped Moore neighbourhood count -/

theorem sum_range_window_aux (f : Nat → Nat) (c : Nat)
    (hf : ∀ i, i + 1 < c ∨ c + 1 < i → f i = 0) (n : Nat) :
    ∑ i in Finset.range n, f i
      = (if 0 < c ∧ c - 1 < n then f (c - 1) else 0) + (if c < n then f c else 0)
        + (if c + 1 < n then f (c + 1) else 0) := by
  induction n with
  | zero => simp
  | succ n ih =>
    rw [Finset.sum_range_succ, ih]
    split_ifs <;>
      first
      | omega
      | (have e := hf n (by omega)
         omega)
      | (have e : f n = f (c - 1) := congrArg f (by omega)
         omega)
      | (have e : f n = f c := congrArg f (by omega)
         omega)
      | (have e : f n = f (c + 1) := congrArg f (by omega)
         omega)

theorem sum_range_window (f : Nat → Nat) (n c : Nat) (hc : c < n)
    (hf : ∀ i, i + 1 < c ∨ c + 1 < i → f i = 0) :
    ∑ i in Finset.range n, f i
      = (if 0 < c then f (c - 1) else 0) + f c + (if c + 1 < n then f (c + 1) else 0) := by
  rw [sum_range_window_aux f c hf n, if_pos hc]
  congr 2
  by_cases h : 0 < c
  · rw [if_pos h, if_pos ⟨h, by omega⟩]
  · rw [if_neg h, if_neg (fun h2 => h h2.1)]

theorem mooreCount_eq_sum (w : World) (y x : Nat) :
    mooreCount w y x
      = ∑ i in Finset.range HEIGHT, ∑ j in Finset.range WIDTH, mooreInd w y x i j := by
  unfold mooreCount
  rw [Finset.card_filter, Finset.sum_product]
  apply Finset.sum_congr rfl
  intro i _
  apply Finset.sum_congr rfl
  intro j _
  unfold mooreInd
  have h1 : |(i : Int) - (y : Int)| ≤ 1 ↔ (i ≤ y + 1 ∧ y ≤ i + 1) := by
    rw [abs_le]; omega
  have h2 : |(j : Int) - (x : Int)| ≤ 1 ↔ (j ≤ x + 1 ∧ x ≤ j + 1) := by
    rw [abs_le]; omega
  simp only [h1, h2]

theorem mooreInd_eq (w : World) (y x i j : Nat) (c : Bool)
    (hc : c = true ↔ (i ≤ y + 1 ∧ y ≤ i + 1) ∧ (j ≤ x + 1 ∧ x ≤ j + 1) ∧ (i, j) ≠ (y, x)) :
    mooreInd w y x i j = aliveCount w c i j := by
  unfold mooreInd aliveCount
  cases c with
  | true =>
    have h := hc.1 rfl
    simp only [Bool.true_and, beq_iff_eq]
    by_cases hcell : cellAt w i j = some ALIVE
    · rw [if_pos hcell, if_pos ⟨h.1, h.2.1, h.2.2, hcell⟩]
    · rw [if_neg hcell, if_neg (fun h2 => hcell h2.2.2.2)]
  | false =>
    have h : ¬ ((i ≤ y + 1 ∧ y ≤ i + 1) ∧ (j ≤ x + 1 ∧ x ≤ j + 1) ∧ (i, j) ≠ (y, x)) := by
      intro h2
      have := hc.2 h2
      cases this
    rw [if_neg (fun h2 => h ⟨h2.1, h2.2.1, h2.2.2.1⟩)]
    simp

theorem mooreInd_far_col (w : World) (y x i j : Nat) (h : j + 1 < x ∨ x + 1 < j) :
    mooreInd w y x i j = 0 := by
  unfold mooreInd
  rw [if_neg (fun h2 => by omega)]

theorem mooreInd_far_row (w : World) (y x i j : Nat) (h : i + 1 < y ∨ y + 1 < i) :
    mooreInd w y x i j = 0 := by
  unfold mooreInd
  rw [if_neg (fun h2 => by omega)]

theorem ite_aliveCount (w : World) (p : Prop) [Decidable p] (c : Bool) (i j : Nat) :
    (if p then aliveCount w c i j else 0) = aliveCount w (decide p && c) i j := by
  by_cases h : p
  · simp [h]
  · simp [h, aliveCount_false]

/-- The sum of the indicator over row `i`, for `i` within one row of `y`. -/
theorem mooreInd_row (w : World) (y x i : Nat) (hx : x < WIDTH) (hi : i ≤ y + 1 ∧ y ≤ i + 1) :
    ∑ j in Finset.range WIDTH, mooreInd w y x i j
      = aliveCount w (decide (0 < x)) i (x - 1) + aliveCount w (!decide (i = y)) i x
        + aliveCount w (decide (x + 1 < WIDTH)) i (x + 1) := by
  rw [sum_range_window (fun j => mooreInd w y x i j) WIDTH x hx
    (fun j hj => mooreInd_far_col w y x i j hj)]
  by_cases h0 : 0 < x
  · rw [if_pos h0, mooreInd_eq w y x i (x - 1) true (by
      simp only [true_iff, ne_eq, Prod.mk.injEq, not_and]
      exact ⟨hi, by omega, fun _ => by omega⟩)]
    simp only [h0, decide_True]
    rw [mooreInd_eq w y x i x (!decide (i = y)) (by
      simp only [Bool.not_eq_true', decide_eq_false_iff_not, ne_eq, Prod.mk.injEq, and_true]
      exact ⟨fun h => ⟨hi, by omega, h⟩, fun h => h.2.2⟩)]
    rw [mooreInd_eq w y x i (x + 1) true (by
      simp only [true_iff, ne_eq, Prod.mk.injEq, not_and]
      exact ⟨hi, by omega, fun _ => by omega⟩), ite_aliveCount]
    simp
  · rw [if_neg h0]
    simp only [h0, decide_False, aliveCount_false]
    rw [mooreInd_eq w y x i x (!decide (i = y)) (by
      simp only [Bool.not_eq_true', decide_eq_false_iff_not, ne_eq, Prod.mk.injEq, and_true]
      exact ⟨fun h => ⟨hi, by omega, h⟩, fun h => h.2.2⟩)]
    rw [mooreInd_eq w y x i (x + 1) true (by
      simp only [true_iff, ne_eq, Prod.mk.injEq, not_and]
      exact ⟨hi, by omega, fun _ => by omega⟩), ite_aliveCount]
    simp

/-- The count the loops of `getNeighbourCount` compute is the clipped Moore neighbourhood
count. -/
theorem neighbourCount_eq_mooreCount (w : World) (y x : Nat) (hy : y < HEIGHT)
    (hx : x < WIDTH) : neighbourCount w y x = mooreCount w y x := by
  rw [mooreCount_eq_sum,
    sum_range_window (fun i => ∑ j in Finset.range WIDTH, mooreInd w y x i j) HEIGHT y hy
      (fun i hi => Finset.sum_eq_zero (fun j _ => mooreInd_far_row w y x i j hi))]
  rw [mooreInd_row w y x y hx (by omega)]
  have emid : (!decide (y = y)) = false := by simp
  rw [emid, aliveCount_false]
  unfold neighbourCount
  by_cases h0 : 0 < y
  · rw [if_pos h0, mooreInd_row w y x (y - 1) hx (by omega)]
    have e1 : (!decide (y - 1 = y)) = true := by
      simp only [Bool.not_eq_true', decide_eq_false_iff_not]; omega
    rw [e1]
    by_cases h1 : y + 1 < HEIGHT
    · rw [if_pos h1, mooreInd_row w y x (y + 1) hx (by omega)]
      have e2 : (!decide (y + 1 = y)) = true := by simp
      rw [e2]
      simp only [h0, h1, decide_True, Bool.true_and]
      omega
    · rw [if_neg h1]
      simp only [h0, h1, decide_True, decide_False, Bool.true_and, Bool.false_and,
        aliveCount_false]
      omega
  · rw [if_neg h0]
    by_cases h1 : y + 1 < HEIGHT
    · rw [if_pos h1, mooreInd_row w y x (y + 1) hx (by omega)]
      have e2 : (!decide (y + 1 = y)) = true := by simp
      rw [e2]
      simp only [h0, h1, decide_True, decide_False, Bool.true_and, Bool.false_and,
        aliveCount_false]
      omega
    · rw [if_neg h1]
      simp only [h0, h1, decide_False, Bool.false_and, aliveCount_false]
      omega

theorem aliveCount_le_one (w : World) (c : Bool) (i j : Nat) : aliveCount w c i j ≤ 1 := by
  unfold aliveCount
  split <;> omega

theorem neighbourCount_le (w : World) (y x : Nat) : neighbourCount w y x ≤ 8 := by
  unfold neighbourCount
  have h1 := aliveCount_le_one w (decide (0 < y) && decide (0 < x)) (y - 1) (x - 1)
  have h2 := aliveCount_le_one w (decide (0 < y)) (y - 1) x
  have h3 := aliveCount_le_one w (decide (0 < y) && decide (x + 1 < WIDTH)) (y - 1) (x + 1)
  have h4 := aliveCount_le_one w (decide (0 < x)) y (x - 1)
  have h5 := aliveCount_le_one w (decide (x + 1 < WIDTH)) y (x + 1)
  have h6 := aliveCount_le_one w (decide (y + 1 < HEIGHT) && decide (0 < x)) (y + 1) (x - 1)
  have h7 := aliveCount_le_one w (decide (y + 1 < HEIGHT)) (y + 1) x
  have h8 := aliveCount_le_one w (decide (y + 1 < HEIGHT) && decide (x + 1 < WIDTH)) (y + 1) (x + 1)
  omega

/-! ## Well-formed states: what the functions return -/

theorem StateWF.curWorld {s : State} (h : StateWF s) :
    ∃ w, jsGet s._worlds s._curDrawWorld = some w ∧ WorldWF w :=
  h.bufs s._curDrawWorld h.cur

theorem StateWF.next_lt {s : State} (_h : StateWF s) : (s._curDrawWorld + 1) % BUFFERS < BUFFERS :=
  Nat.mod_lt _ (by decide)

theorem StateWF.next_ne {s : State} (h : StateWF s) :
    s._curDrawWorld ≠ (s._curDrawWorld + 1) % BUFFERS := by
  have := h.cur
  have hB : BUFFERS = 2 := rfl
  rw [hB] at this ⊢
  omega

theorem WorldWF.rows_exist {w : World} (h : WorldWF w) :
    ∀ i, i < HEIGHT → ∃ r, jsGet w i = some r :=
  fun i hi => (h.rows i hi).imp (fun _ hr => hr.1)

theorem update_eq_of_wf (s : State) (w : World) (hs : StateWF s)
    (hw : jsGet s._worlds s._curDrawWorld = some w) : update s = some (updated s w) := by
  obtain ⟨w', hw', hwf⟩ := hs.curWorld
  rw [hw] at hw'
  cases hw'
  obtain ⟨w2, hw2, hwf2⟩ := hs.bufs _ hs.next_lt
  exact update_eq s w w2 hw hwf.rows_exist hs.next_ne hw2 hwf2.len
    (fun y hy => (hwf2.rows y hy).imp (fun _ hr => ⟨hr.1, hr.2.len⟩))

theorem stateWF_updated (s : State) (w : World) (hs : StateWF s) : StateWF (updated s w) := by
  refine ⟨?_, ?_, hs.next_lt⟩
  · show (jsSet s._worlds _ _).length = _
    rw [length_jsSet_of_lt _ _ _ (by rw [hs.len]; exact hs.next_lt), hs.len]
  · intro k hk
    show ∃ w', jsGet (jsSet s._worlds _ _) k = some w' ∧ _
    rw [jsGet_jsSet]
    split
    · exact ⟨_, rfl, worldWF_nextGen w⟩
    · exact hs.bufs k hk

/-! ## Concrete states -/

theorem stateOk_initState : stateOk initState = true := by decide

theorem cornerState_eq : ∃ s, cornerState = some s ∧ stateOk s = true := by
  refine ⟨(cornerState.getD initState), ?_, ?_⟩
  · decide
  · decide

theorem cellAt_of_worldWF {w : World} (h : WorldWF w) (y x : Nat) (hy : y < HEIGHT)
    (hx : x < WIDTH) : cellAt w y x = some DEAD ∨ cellAt w y x = some ALIVE := by
  obtain ⟨r, hr, hrwf⟩ := h.rows y hy
  unfold cellAt
  rw [hr, Option.some_bind]
  exact hrwf.cells x hx

theorem dead_ne_alive : (some DEAD : Option Nat) ≠ some ALIVE := by decide

theorem updated_curWorld (s : State) (w : World) :
    jsGet (updated s w)._worlds (updated s w)._curDrawWorld = some (nextGen w) := by
  show jsGet (jsSet s._worlds ((s._curDrawWorld + 1) % BUFFERS) (nextGen w))
    ((s._curDrawWorld + 1) % BUFFERS) = _
  rw [jsGet_jsSet_self]

theorem updated_prevWorld (s : State) (w : World) (hs : StateWF s) :
    jsGet (updated s w)._worlds s._curDrawWorld = jsGet s._worlds s._curDrawWorld := by
  show jsGet (jsSet s._worlds _ _) _ = _
  rw [jsGet_jsSet_ne _ _ _ _ hs.next_ne]

/-! ## The claims -/

/-- C1: from every well-formed state `update` returns, and each cell `(y, x)` of the new
current grid is `ALIVE` if and only if the old cell was `ALIVE` with neighbour count 2 or
3, or `DEAD` with neighbour count exactly 3 (and is `DEAD` otherwise); in particular a
cell with count 3 becomes `ALIVE`, and a live cell with count 0, 1, 4, 5, 6, 7 or 8
becomes `DEAD`. -/
theorem update_applies_B3S23 (s : State) (hs : stateOk s = true) :
    ∃ s' w w', update s = some s' ∧ jsGet s._worlds s._curDrawWorld = some w
      ∧ jsGet s'._worlds s'._curDrawWorld = some w'
      ∧ ∀ y x, y < HEIGHT → x < WIDTH →
        ∃ n, getNeighbourCount s y x = some n
          ∧ (cellAt w' y x = some ALIVE ↔
              (cellAt w y x = some ALIVE ∧ (n = 2 ∨ n = 3))
                ∨ (cellAt w y x = some DEAD ∧ n = 3))
          ∧ (cellAt w' y x = some ALIVE ∨ cellAt w' y x = some DEAD)
          ∧ (n = 3 → cellAt w' y x = some ALIVE)
          ∧ (cellAt w y x = some ALIVE →
              (n = 0 ∨ n = 1 ∨ n = 4 ∨ n = 5 ∨ n = 6 ∨ n = 7 ∨ n = 8) →
              cellAt w' y x = some DEAD) := by
  have hwf := (stateOk_iff s).1 hs
  obtain ⟨w, hw, hwwf⟩ := hwf.curWorld
  refine ⟨updated s w, w, nextGen w, update_eq_of_wf s w hwf hw, hw,
    updated_curWorld s w, ?_⟩
  intro y x hy hx
  refine ⟨neighbourCount w y x, getNeighbourCount_eq s w y x hw hwwf.rows_exist hy hx, ?_⟩
  rw [cellAt_nextGen w y x hy hx]
  unfold nextCellAt nextCell
  have hda : DEAD ≠ ALIVE := by decide
  rcases cellAt_of_worldWF hwwf y x hy hx with hc | hc
  · rw [hc]
    have hb : ((some DEAD : Option Nat) == some ALIVE) = false := by decide
    simp only [hb, Bool.false_eq_true, if_false, Option.some.injEq, hda, false_and, false_or,
      true_and, false_implies, and_true]
    by_cases h3 : neighbourCount w y x = 3
    · simp [h3]
    · simp [h3, hda, Ne.symm hda]
  · rw [hc]
    simp only [beq_self_eq_true, if_true, Option.some.injEq, Ne.symm hda, false_and, or_false,
      true_and, true_implies]
    by_cases h23 : neighbourCount w y x = 2 ∨ neighbourCount w y x = 3
    · rw [if_pos h23]
      simp only [true_or, h23, implies_true, true_and, true_iff]
      intro h
      omega
    · rw [if_neg h23]
      simp only [hda, h23, or_true, false_iff, not_false_eq_true, true_and, implies_true,
        and_true]
      intro h
      omega

theorem update_applies_B3S23_witness :
    stateOk initState = true ∧
    ∃ s' w w', update initState = some s' ∧ jsGet initState._worlds initState._curDrawWorld = some w
      ∧ jsGet s'._worlds s'._curDrawWorld = some w'
      ∧ ∀ y x, y < HEIGHT → x < WIDTH →
        ∃ n, getNeighbourCount initState y x = some n
          ∧ (cellAt w' y x = some ALIVE ↔
              (cellAt w y x = some ALIVE ∧ (n = 2 ∨ n = 3))
                ∨ (cellAt w y x = some DEAD ∧ n = 3))
          ∧ (cellAt w' y x = some ALIVE ∨ cellAt w' y x = some DEAD)
          ∧ (n = 3 → cellAt w' y x = some ALIVE)
          ∧ (cellAt w y x = some ALIVE →
              (n = 0 ∨ n = 1 ∨ n = 4 ∨ n = 5 ∨ n = 6 ∨ n = 7 ∨ n = 8) →
              cellAt w' y x = some DEAD) :=
  ⟨stateOk_initState, update_applies_B3S23 initState stateOk_initState⟩

/-- C2: for every well-formed current grid and every in-range `(y, x)`,
`getNeighbourCount(y, x)` returns the number of grid positions `(i, j)` with
`|i - y| ≤ 1`, `|j - x| ≤ 1`, `(i, j) ≠ (y, x)` whose cell is `ALIVE` (positions outside
the grid contribute nothing, there is no wrap-around), and the result is at most 8. -/
theorem getNeighbourCount_is_clipped_moore (s : State) (w : World) (y x : Nat)
    (hw : jsGet s._worlds s._curDrawWorld = some w) (hwf : worldOk w = true)
    (hy : y < HEIGHT) (hx : x < WIDTH) :
    getNeighbourCount s y x = some (mooreCount w y x) ∧ mooreCount w y x ≤ 8 := by
  have hwwf := (worldOk_iff w).1 hwf
  rw [← neighbourCount_eq_mooreCount w y x hy hx]
  exact ⟨getNeighbourCount_eq s w y x hw hwwf.rows_exist hy hx, neighbourCount_le w y x⟩

theorem getNeighbourCount_is_clipped_moore_witness :
    (jsGet initState._worlds initState._curDrawWorld = some (emptyWorld [])
      ∧ worldOk (emptyWorld []) = true ∧ 0 < HEIGHT ∧ 24 < WIDTH)
    ∧ getNeighbourCount initState 0 24 = some (mooreCount (emptyWorld []) 0 24)
    ∧ mooreCount (emptyWorld []) 0 24 ≤ 8 :=
  ⟨⟨by decide, by decide, by decide, by decide⟩,
    getNeighbourCount_is_clipped_moore initState (emptyWorld []) 0 24 (by decide) (by decide)
      (by decide) (by decide)⟩

/-- C3: with at least two buffers and a current index `c` below their number, the write
target `(c + 1) mod BUFFERS` differs from `c`; and from every well-formed state `update`
returns a state in which the buffer that was current before the call is unchanged. -/
theorem update_keeps_current_buffer (s : State) (hs : stateOk s = true) :
    (∀ buffers c, 2 ≤ buffers → c < buffers → (c + 1) % buffers ≠ c)
    ∧ (s._curDrawWorld + 1) % BUFFERS ≠ s._curDrawWorld
    ∧ ∃ s', update s = some s'
        ∧ jsGet s'._worlds s._curDrawWorld = jsGet s._worlds s._curDrawWorld := by
  have hwf := (stateOk_iff s).1 hs
  obtain ⟨w, hw, _⟩ := hwf.curWorld
  refine ⟨?_, Ne.symm hwf.next_ne, updated s w, update_eq_of_wf s w hwf hw,
    updated_prevWorld s w hwf⟩
  intro buffers c hb hc
  by_cases h : c + 1 < buffers
  · rw [Nat.mod_eq_of_lt h]; omega
  · have : c + 1 = buffers := by omega
    rw [this, Nat.mod_self]; omega

theorem update_keeps_current_buffer_witness :
    stateOk initState = true ∧
    ((∀ buffers c, 2 ≤ buffers → c < buffers → (c + 1) % buffers ≠ c)
    ∧ (initState._curDrawWorld + 1) % BUFFERS ≠ initState._curDrawWorld
    ∧ ∃ s', update initState = some s'
        ∧ jsGet s'._worlds initState._curDrawWorld
            = jsGet initState._worlds initState._curDrawWorld) :=
  ⟨stateOk_initState, update_keeps_current_buffer initState stateOk_initState⟩

/-- C5: on a well-formed current grid whose only `ALIVE` cells are `(row 0, col 1)` and
`(row 1, col 0)`, `getNeighbourCount(0, 0)` returns 2. -/
theorem corner_neighbour_count (s : State) (w : World)
    (hw : jsGet s._worlds s._curDrawWorld = some w) (hwf : worldOk w = true)
    (halive : ∀ i, i < HEIGHT → ∀ j, j < WIDTH →
      (cellAt w i j = some ALIVE ↔ (i = 0 ∧ j = 1) ∨ (i = 1 ∧ j = 0))) :
    getNeighbourCount s 0 0 = some 2 := by
  have hwwf := (worldOk_iff w).1 hwf
  rw [getNeighbourCount_eq s w 0 0 hw hwwf.rows_exist (by decide) (by decide)]
  have h01 : cellAt w 0 1 = some ALIVE := (halive 0 (by decide) 1 (by decide)).2 (Or.inl ⟨rfl, rfl⟩)
  have h10 : cellAt w 1 0 = some ALIVE := (halive 1 (by decide) 0 (by decide)).2 (Or.inr ⟨rfl, rfl⟩)
  have h11 : ¬ cellAt w 1 1 = some ALIVE := fun h => by
    have := (halive 1 (by decide) 1 (by decide)).1 h
    omega
  congr 1
  simp [neighbourCount, aliveCount, h01, h10, h11, WIDTH, HEIGHT]

theorem corner_neighbour_count_witness :
    (jsGet (cornerState.getD initState)._worlds (cornerState.getD initState)._curDrawWorld
        = some (((cornerState.getD initState)._worlds.getD 0 none).getD [])
      ∧ worldOk (((cornerState.getD initState)._worlds.getD 0 none).getD []) = true
      ∧ ∀ i, i < HEIGHT → ∀ j, j < WIDTH →
        (cellAt (((cornerState.getD initState)._worlds.getD 0 none).getD []) i j = some ALIVE
          ↔ (i = 0 ∧ j = 1) ∨ (i = 1 ∧ j = 0)))
    ∧ getNeighbourCount (cornerState.getD initState) 0 0 = some 2 :=
  ⟨⟨by decide, by decide, by decide⟩,
    corner_neighbour_count (cornerState.getD initState)
      (((cornerState.getD initState)._worlds.getD 0 none).getD []) (by decide) (by decide)
      (by decide)⟩

/-! ## `emptyWorld` -/

theorem foldl_range_inv {σ : Type} (f : σ → Nat → σ) (P : Nat → σ → Prop) (n : Nat) (s0 : σ)
    (h0 : P 0 s0) (hstep : ∀ i s, i < n → P i s → P (i + 1) (f s i)) :
    P n ((List.range n).foldl f s0) := by
  induction n with
  | zero => exact h0
  | succ n ih =>
    rw [List.range_succ, List.foldl_append]
    exact hstep n _ (by omega) (ih (fun i s hi hP => hstep i s (by omega) hP))

theorem emptyWorld_row : (List.range WIDTH).foldl (fun row x => jsSet row x DEAD) [] = deadRow := by
  decide

theorem emptyWorld_inv (world : World) :
    (emptyWorld world).length = max world.length HEIGHT
    ∧ ∀ y, jsGet (emptyWorld world) y = if y < HEIGHT then some deadRow else jsGet world y := by
  unfold emptyWorld
  rw [emptyWorld_row]
  apply foldl_range_inv (fun world y => jsSet world y deadRow)
    (fun n acc => acc.length = max world.length n
      ∧ ∀ y, jsGet acc y = if y < n then some deadRow else jsGet world y)
  · exact ⟨by omega, fun y => by simp⟩
  · rintro i acc _ ⟨hlen, hget⟩
    refine ⟨by rw [length_jsSet, hlen]; omega, fun y => ?_⟩
    rw [jsGet_jsSet, hget]
    by_cases h1 : y = i
    · subst h1; simp
    · rw [if_neg h1]
      by_cases h2 : y < i
      · rw [if_pos h2, if_pos (by omega)]
      · rw [if_neg h2, if_neg (by omega)]

theorem jsGet_replicate {α : Type} (n i : Nat) (v : α) :
    jsGet (List.replicate n (some v)) i = if i < n then some v else none := by
  unfold jsGet
  split
  · rename_i h
    rw [List.getElem?_eq_getElem (by simpa using h)]
    simp
  · rename_i h
    rw [List.getElem?_eq_none (by simpa using h)]
    rfl

theorem emptyWorld_eq (world : World) (h : world.length ≤ HEIGHT) :
    emptyWorld world = deadWorld := by
  obtain ⟨hlen, hget⟩ := emptyWorld_inv world
  apply jsArray_ext
  · rw [hlen]; simp [deadWorld]; exact h
  · intro y hy
    rw [hlen] at hy
    rw [hget, deadWorld, jsGet_replicate, if_pos (by omega), if_pos (by omega)]

theorem cellAt_deadWorld (y x : Nat) (hy : y < HEIGHT) (hx : x < WIDTH) :
    cellAt deadWorld y x = some DEAD := by
  unfold cellAt deadWorld
  rw [jsGet_replicate, if_pos hy, Option.some_bind, deadRow, jsGet_replicate, if_pos hx]

theorem worldOk_deadWorld : worldOk deadWorld = true := by decide

theorem worldWF_deadWorld : WorldWF deadWorld := (worldOk_iff _).1 worldOk_deadWorld

theorem neighbourCount_deadWorld (y x : Nat) : neighbourCount deadWorld y x = 0 := by
  have h : ∀ c i j, aliveCount deadWorld c i j = 0 := by
    intro c i j
    unfold aliveCount
    by_cases hc : c = true
    · by_cases hi : i < HEIGHT
      · by_cases hj : j < WIDTH
        · rw [cellAt_deadWorld i j hi hj]; simp [DEAD, ALIVE]
        · have : cellAt deadWorld i j = none := by
            unfold cellAt deadWorld
            rw [jsGet_replicate, if_pos hi, Option.some_bind, deadRow, jsGet_replicate,
              if_neg hj]
          rw [this]; simp
      · have : cellAt deadWorld i j = none := by
          unfold cellAt deadWorld
          rw [jsGet_replicate, if_neg hi]; rfl
        rw [this]; simp
    · simp [hc]
  unfold neighbourCount
  simp only [h]

/-- C9: for every world value passed in, that is one with at most `HEIGHT` rows (the
empty array used at initialisation, a `HEIGHT`-row grid with arbitrary prior contents),
`emptyWorld(world)` returns with the world holding exactly `HEIGHT` rows of exactly
`WIDTH` cells, every one `DEAD`; and when that world is the current grid,
`getNeighbourCount(y, x)` is 0 for every in-range `(y, x)`. -/
theorem emptyWorld_clears (world : World) (h : world.length ≤ HEIGHT) :
    (emptyWorld world).length = HEIGHT
    ∧ (∀ y, y < HEIGHT → ∃ row, jsGet (emptyWorld world) y = some row ∧ row.length = WIDTH
        ∧ ∀ x, x < WIDTH → jsGet row x = some DEAD)
    ∧ worldOk (emptyWorld world) = true
    ∧ ∀ s : State, jsGet s._worlds s._curDrawWorld = some (emptyWorld world) →
        ∀ y x, y < HEIGHT → x < WIDTH → getNeighbourCount s y x = some 0 := by
  rw [emptyWorld_eq world h]
  refine ⟨by simp [deadWorld], ?_, worldOk_deadWorld, ?_⟩
  · intro y hy
    refine ⟨deadRow, by rw [deadWorld, jsGet_replicate, if_pos hy], by simp [deadRow], ?_⟩
    intro x hx
    rw [deadRow, jsGet_replicate, if_pos hx]
  · intro s hs y x hy hx
    rw [getNeighbourCount_eq s deadWorld y x hs worldWF_deadWorld.rows_exist hy hx,
      neighbourCount_deadWorld y x]

theorem emptyWorld_clears_witness :
    (stampAll (gliderCells 0 0) deadWorld).length ≤ HEIGHT
    ∧ (emptyWorld (stampAll (gliderCells 0 0) deadWorld)).length = HEIGHT
    ∧ (∀ y, y < HEIGHT → ∃ row, jsGet (emptyWorld (stampAll (gliderCells 0 0) deadWorld)) y
          = some row ∧ row.length = WIDTH
        ∧ ∀ x, x < WIDTH → jsGet row x = some DEAD)
    ∧ worldOk (emptyWorld (stampAll (gliderCells 0 0) deadWorld)) = true
    ∧ ∀ s : State, jsGet s._worlds s._curDrawWorld
          = some (emptyWorld (stampAll (gliderCells 0 0) deadWorld)) →
        ∀ y x, y < HEIGHT → x < WIDTH → getNeighbourCount s y x = some 0 :=
  ⟨by decide, emptyWorld_clears (stampAll (gliderCells 0 0) deadWorld) (by decide)⟩

/-! ## `draw` and `step` -/

theorem foldlM_range_eq_foldl {σ : Type} (f : σ → Nat → Option σ) (g : σ → Nat → σ) (n : Nat)
    (h : ∀ i, i < n → ∀ a, f a i = some (g a i)) (a : σ) :
    (List.range n).foldlM f a = some ((List.range n).foldl g a) := by
  obtain ⟨s', hs', hP⟩ := foldlM_range_inv f (fun i s => s = (List.range i).foldl g a) n a rfl
    (fun i s hi hs => ⟨g s i, h i hi s, by
      show g s i = List.foldl g a (List.range (i + 1))
      have hs2 : s = List.foldl g a (List.range i) := hs
      rw [List.range_succ, List.foldl_append, ← hs2]; rfl⟩)
  rw [hs', hP]

theorem draw_loops (s : State) :
    draw s = ((List.range HEIGHT).foldlM (fun frame y =>
      (List.range WIDTH).foldlM (fun frame x =>
        (cellIsAlive s s._curDrawWorld y x).bind (fun alive =>
          some (if alive then frame ++ [(x, y)] else frame))) frame) ([] : Frame)).bind
        (fun frame => some { s with frames := s.frames ++ [frame] }) := rfl

theorem draw_eq (s : State) (w : World) (hw : jsGet s._worlds s._curDrawWorld = some w)
    (hrows : ∀ i, i < HEIGHT → ∃ r, jsGet w i = some r) : draw s = some (drawn s w) := by
  rw [draw_loops]
  rw [foldlM_range_eq_foldl _ (fun frame y =>
      (List.range WIDTH).foldl (fun frame x =>
        if cellAt w y x == some ALIVE then frame ++ [(x, y)] else frame) frame) HEIGHT]
  · rfl
  · intro y hy frame
    obtain ⟨r, hr⟩ := hrows y hy
    apply foldlM_range_eq_foldl
    intro x _ fr
    rw [cellIsAlive_eq s _ y x w r hw hr]
    rfl

theorem mem_frameOf (w : World) (x y : Nat) :
    (x, y) ∈ frameOf w ↔ y < HEIGHT ∧ x < WIDTH ∧ cellAt w y x = some ALIVE := by
  have inner : ∀ (y : Nat) (fr0 : Frame) (p : Nat × Nat),
      p ∈ (List.range WIDTH).foldl (fun frame x =>
        if cellAt w y x == some ALIVE then frame ++ [(x, y)] else frame) fr0
      ↔ p ∈ fr0 ∨ (p.2 = y ∧ p.1 < WIDTH ∧ cellAt w y p.1 = some ALIVE) := by
    intro y fr0 p
    apply foldl_range_inv _ (fun n fr =>
      p ∈ fr ↔ p ∈ fr0 ∨ (p.2 = y ∧ p.1 < n ∧ cellAt w y p.1 = some ALIVE))
    · simp
    · intro i fr _ hfr
      by_cases hc : cellAt w y i = some ALIVE
      · simp only [hc, beq_self_eq_true, if_true, List.mem_append, List.mem_singleton, hfr]
        constructor
        · rintro ((h | h) | h)
          · exact Or.inl h
          · exact Or.inr ⟨h.1, by omega, h.2.2⟩
          · subst h; exact Or.inr ⟨rfl, by simp, hc⟩
        · rintro (h | ⟨h1, h2, h3⟩)
          · exact Or.inl (Or.inl h)
          · by_cases hi : p.1 = i
            · right; exact Prod.ext hi h1
            · left; right; exact ⟨h1, by omega, h3⟩
      · have hb : (cellAt w y i == some ALIVE) = false := by simpa using hc
        simp only [hb, Bool.false_eq_true, if_false, hfr]
        constructor
        · rintro (h | h)
          · exact Or.inl h
          · exact Or.inr ⟨h.1, by omega, h.2.2⟩
        · rintro (h | ⟨h1, h2, h3⟩)
          · exact Or.inl h
          · by_cases hi : p.1 = i
            · rw [hi] at h3; exact absurd h3 hc
            · right; exact ⟨h1, by omega, h3⟩
  have outer : ∀ p : Nat × Nat, p ∈ frameOf w
      ↔ p.2 < HEIGHT ∧ p.1 < WIDTH ∧ cellAt w p.2 p.1 = some ALIVE := by
    intro p
    unfold frameOf
    apply foldl_range_inv _ (fun n fr =>
      p ∈ fr ↔ p.2 < n ∧ p.1 < WIDTH ∧ cellAt w p.2 p.1 = some ALIVE)
    · simp
    · intro i fr _ hfr
      rw [inner i fr p, hfr]
      constructor
      · rintro (h | ⟨h1, h2, h3⟩)
        · exact ⟨by omega, h.2⟩
        · exact ⟨by omega, h2, by rw [h1]; exact h3⟩
      · rintro ⟨h1, h2, h3⟩
        by_cases hi : p.2 = i
        · right; exact ⟨hi, h2, by rw [← hi]; exact h3⟩
        · left; exact ⟨by omega, h2, h3⟩
  exact outer (x, y)

theorem stateWF_drawn (s : State) (w : World) (hs : StateWF s) : StateWF (drawn s w) :=
  ⟨hs.len, hs.bufs, hs.cur⟩

theorem step_eq_of_wf (s : State) (w : World) (hs : StateWF s)
    (hw : jsGet s._worlds s._curDrawWorld = some w) : step s = some (stepped s w) := by
  obtain ⟨w', hw', hwf⟩ := hs.curWorld
  rw [hw] at hw'
  cases hw'
  unfold step
  rw [draw_eq s w hw hwf.rows_exist]
  exact update_eq_of_wf (drawn s w) w (stateWF_drawn s w hs) hw

theorem stateWF_stepped (s : State) (w : World) (hs : StateWF s) : StateWF (stepped s w) :=
  stateWF_updated (drawn s w) w (stateWF_drawn s w hs)

/-! ## What the functions leave unchanged, whatever the state -/

theorem foldlM_preserves {σ α : Type} (f : σ → α → Option σ) (Q : σ → Prop)
    (hf : ∀ s a s', f s a = some s' → Q s → Q s') :
    ∀ (l : List α) (s s' : σ), l.foldlM f s = some s' → Q s → Q s' := by
  intro l
  induction l with
  | nil =>
    intro s s' h hQ
    simp only [List.foldlM_nil, Option.pure_def, Option.some.injEq] at h
    rw [← h]; exact hQ
  | cons a l ih =>
    intro s s' h hQ
    rw [List.foldlM_cons] at h
    cases hfa : f s a with
    | none => rw [hfa] at h; cases h
    | some s1 =>
      rw [hfa] at h
      exact ih s1 s' h (hf s a s1 hfa hQ)

theorem SameShell.refl (s : State) : SameShell s s := rfl

theorem setCell_shell (s s' : State) (k y x v : Nat) (h : setCell s k y x v = some s') :
    SameShell s s' := by
  unfold setCell at h
  cases h1 : jsGet s._worlds k with
  | none => rw [h1] at h; cases h
  | some w =>
    rw [h1] at h
    cases h2 : jsGet w y with
    | none => simp [h2] at h
    | some r =>
      simp only [h2, Option.bind_eq_bind, Option.some_bind, Option.pure_def,
        Option.some.injEq] at h
      rw [← h]; rfl

theorem SameShell.trans {s t u : State} (h1 : SameShell s t) (h2 : SameShell t u) :
    SameShell s u := by
  unfold SameShell withWorlds at *
  cases s; cases t; cases u
  simp only [State.mk.injEq] at *
  obtain ⟨_, a1, a2, a3, a4, a5, a6⟩ := h1
  obtain ⟨_, b1, b2, b3, b4, b5, b6⟩ := h2
  exact ⟨trivial, b1.trans a1, b2.trans a2, b3.trans a3, b4.trans a4, b5.trans a5, b6.trans a6⟩

theorem updateCell_shell (cur next y : Nat) (s : State) (x : Nat) (s' : State)
    (h : updateCell cur next y s x = some s') : SameShell s s' := by
  unfold updateCell at h
  cases h1 : getNeighbourCount s y x with
  | none => rw [h1] at h; cases h
  | some n =>
    rw [h1] at h
    cases h2 : cellIsAlive s cur y x with
    | none => simp [h2] at h
    | some a =>
      simp only [h2, Option.bind_eq_bind, Option.some_bind] at h
      split at h
      · exact setCell_shell _ _ _ _ _ _ h
      · exact setCell_shell _ _ _ _ _ _ h

theorem updateLoops_shell (cur next : Nat) (s s' : State)
    (h : (List.range HEIGHT).foldlM (updateRow cur next) s = some s') : SameShell s s' := by
  refine foldlM_preserves (updateRow cur next) (fun t => SameShell s t) ?_ _ s s' h
    (SameShell.refl s)
  intro t y t' ht hQ
  unfold updateRow at ht
  exact foldlM_preserves (updateCell cur next y) (fun u => SameShell s u)
    (fun u x u' hu hQu => hQu.trans (updateCell_shell cur next y u x u' hu)) _ t t' ht hQ

/-- Whatever the state, when `update` returns it has changed only the worlds and the
current index, which is the next one. -/
theorem update_shell (s s' : State) (h : update s = some s') :
    s' = { s with _worlds := s'._worlds, _curDrawWorld := (s._curDrawWorld + 1) % BUFFERS } := by
  rw [update_loops] at h
  cases h1 : (List.range HEIGHT).foldlM
      (updateRow s._curDrawWorld ((s._curDrawWorld + 1) % BUFFERS)) s with
  | none => rw [h1] at h; cases h
  | some t =>
    rw [h1, Option.some_bind, Option.some.injEq] at h
    have hsh := updateLoops_shell _ _ s t h1
    unfold SameShell withWorlds at hsh
    rw [← h]
    cases s; cases t
    simp only [State.mk.injEq] at hsh ⊢
    obtain ⟨_, a1, a2, a3, a4, a5, a6⟩ := hsh
    exact ⟨trivial, by rw [a1], a2, a3, a4, a5, a6⟩

/-- Whatever the state, when `draw` returns it has changed only the frames. -/
theorem draw_shell (s s' : State) (h : draw s = some s') :
    s' = { s with frames := s'.frames } := by
  rw [draw_loops] at h
  cases h1 : (List.range HEIGHT).foldlM (fun frame y =>
      (List.range WIDTH).foldlM (fun frame x =>
        (cellIsAlive s s._curDrawWorld y x).bind (fun alive =>
          some (if alive then frame ++ [(x, y)] else frame))) frame) ([] : Frame) with
  | none => rw [h1] at h; cases h
  | some fr =>
    rw [h1, Option.some_bind, Option.some.injEq] at h
    rw [← h]

/-- Whatever the state, when `step` returns it has left the run flag, the timer handle
and the registered timers as they were. -/
theorem step_shell (s s' : State) (h : step s = some s') :
    s'._isRunning = s._isRunning ∧ s'._interval = s._interval ∧ s'.timers = s.timers
      ∧ s'.nextTimerId = s.nextTimerId
      ∧ s'._curDrawWorld = (s._curDrawWorld + 1) % BUFFERS := by
  unfold step at h
  cases h1 : draw s with
  | none => rw [h1] at h; cases h
  | some t =>
    rw [h1] at h
    have hu := update_shell t s' h
    have hd := draw_shell s t h1
    rw [hu, hd]
    exact ⟨rfl, rfl, rfl, rfl, rfl⟩

theorem stateOk_running (s : State) (b : Bool) (hs : StateWF s) :
    StateWF { s with _isRunning := b } := ⟨hs.len, hs.bufs, hs.cur⟩

theorem start_idle_eq (s : State) (w : World) (hs : StateWF s)
    (hw : jsGet s._worlds s._curDrawWorld = some w) (hidle : s._isRunning = false) :
    start s = some { stepped { s with _isRunning := true } w with
      _interval := TimerHandle.id s.nextTimerId,
      timers := s.timers ++ [⟨s.nextTimerId, UPDATE_TIME⟩],
      nextTimerId := s.nextTimerId + 1 } := by
  unfold start
  rw [hidle]
  simp only [Bool.false_eq_true, if_false]
  rw [step_eq_of_wf { s with _isRunning := true } w (stateOk_running s true hs) hw]
  rfl

theorem start_running_eq (s : State) (h : s._isRunning = true) : start s = some s := by
  unfold start
  rw [h]; rfl

/-- C10: from every well-formed state `start()` returns, and a second `start()` returns
the very same state (grids, current index, run flag, timers, frames): it performs no
step and registers nothing; from Idle the two calls together register exactly one
periodic callback. And whatever the state, when `start()` returns, a second `start()`
returns the same state. -/
theorem start_twice_is_start_once (s : State) (hs : stateOk s = true) :
    (∀ t t1, start t = some t1 → start t1 = some t1)
    ∧ ∃ s1, start s = some s1 ∧ start s1 = some s1 ∧ s1._isRunning = true
        ∧ (s._isRunning = true → s1 = s)
        ∧ (s._isRunning = false →
            s1.timers = s.timers ++ [⟨s.nextTimerId, UPDATE_TIME⟩]
            ∧ s1.frames.length = s.frames.length + 1
            ∧ (s.timers = [] → s1.timers.length = 1)) := by
  have hgen : ∀ t t1, start t = some t1 → start t1 = some t1 := by
    intro t t1 h
    by_cases hr : t._isRunning = true
    · rw [start_running_eq t hr] at h
      cases h
      exact start_running_eq t hr
    · have hr2 : t._isRunning = false := by simpa using hr
      unfold start at h
      rw [hr2] at h
      simp only [Bool.false_eq_true, if_false] at h
      cases hst : step { t with _isRunning := true } with
      | none => rw [hst] at h; cases h
      | some u =>
        rw [hst] at h
        simp only [Option.bind_eq_bind, Option.some_bind, setInterval, Option.pure_def,
          Option.some.injEq] at h
        have hsh := step_shell _ u hst
        apply start_running_eq
        rw [← h]
        exact hsh.1
  have hwf := (stateOk_iff s).1 hs
  obtain ⟨w, hw, _⟩ := hwf.curWorld
  refine ⟨hgen, ?_⟩
  by_cases hr : s._isRunning = true
  · refine ⟨s, start_running_eq s hr, start_running_eq s hr, hr, fun _ => rfl, ?_⟩
    intro h; rw [h] at hr; cases hr
  · have hr2 : s._isRunning = false := by simpa using hr
    have h1 := start_idle_eq s w hwf hw hr2
    refine ⟨_, h1, hgen _ _ h1, rfl, fun h => absurd h hr, fun _ => ⟨rfl, ?_, ?_⟩⟩
    · show (s.frames ++ [frameOf w]).length = _
      simp
    · intro ht
      show (s.timers ++ [_]).length = 1
      rw [ht]; rfl

theorem start_twice_is_start_once_witness :
    stateOk initState = true ∧
    ((∀ t t1, start t = some t1 → start t1 = some t1)
    ∧ ∃ s1, start initState = some s1 ∧ start s1 = some s1 ∧ s1._isRunning = true
        ∧ (initState._isRunning = true → s1 = initState)
        ∧ (initState._isRunning = false →
            s1.timers = initState.timers ++ [⟨initState.nextTimerId, UPDATE_TIME⟩]
            ∧ s1.frames.length = initState.frames.length + 1
            ∧ (initState.timers = [] → s1.timers.length = 1))) :=
  ⟨stateOk_initState, start_twice_is_start_once initState stateOk_initState⟩

/-- C11: from a well-formed Idle state `start()` sets `_isRunning`, performs exactly one
`step()` (one render, of the current grid; one update; current index advanced by one
modulo `BUFFERS`), then registers exactly one periodic timer, of period
`UPDATE_TIME = 100`, whose id it stores in `_interval`. -/
theorem start_from_idle (s : State) (hs : stateOk s = true) (hidle : s._isRunning = false) :
    ∃ w s1 s2, jsGet s._worlds s._curDrawWorld = some w
      ∧ step { s with _isRunning := true } = some s1
      ∧ start s = some s2
      ∧ s2 = { (setInterval s1 UPDATE_TIME).1 with
                _interval := (setInterval s1 UPDATE_TIME).2 }
      ∧ s2._isRunning = true
      ∧ s2.frames = s.frames ++ [frameOf w]
      ∧ s2._curDrawWorld = (s._curDrawWorld + 1) % BUFFERS
      ∧ jsGet s2._worlds s2._curDrawWorld = some (nextGen w)
      ∧ s2.timers = s.timers ++ [⟨s.nextTimerId, 100⟩]
      ∧ s2._interval = TimerHandle.id s.nextTimerId := by
  have hwf := (stateOk_iff s).1 hs
  obtain ⟨w, hw, _⟩ := hwf.curWorld
  refine ⟨w, stepped { s with _isRunning := true } w, _, hw,
    step_eq_of_wf { s with _isRunning := true } w (stateOk_running s true hwf) hw,
    start_idle_eq s w hwf hw hidle, rfl, rfl, rfl, rfl, ?_, rfl, rfl⟩
  exact updated_curWorld _ w

theorem start_from_idle_witness :
    (stateOk initState = true ∧ initState._isRunning = false) ∧
    ∃ w s1 s2, jsGet initState._worlds initState._curDrawWorld = some w
      ∧ step { initState with _isRunning := true } = some s1
      ∧ start initState = some s2
      ∧ s2 = { (setInterval s1 UPDATE_TIME).1 with
                _interval := (setInterval s1 UPDATE_TIME).2 }
      ∧ s2._isRunning = true
      ∧ s2.frames = initState.frames ++ [frameOf w]
      ∧ s2._curDrawWorld = (initState._curDrawWorld + 1) % BUFFERS
      ∧ jsGet s2._worlds s2._curDrawWorld = some (nextGen w)
      ∧ s2.timers = initState.timers ++ [⟨initState.nextTimerId, 100⟩]
      ∧ s2._interval = TimerHandle.id initState.nextTimerId :=
  ⟨⟨stateOk_initState, rfl⟩, start_from_idle initState stateOk_initState rfl⟩

/-- C12: when `_isRunning` is false `stop()` returns leaving the whole state unchanged;
when it is true `stop()` returns with the timer named by `_interval` no longer
registered (and no timer added), `_interval` set to `null`, `_isRunning` false, and
grids, current index and frames unchanged. -/
theorem stop_idle_noop_running_cancels (s : State) :
    (s._isRunning = false → stop s = some s)
    ∧ (s._isRunning = true →
        ∃ s', stop s = some s' ∧ s' = { clearInterval s s._interval with
                _interval := TimerHandle.null, _isRunning := false }
          ∧ s'._isRunning = false ∧ s'._interval = TimerHandle.null
          ∧ s'._worlds = s._worlds ∧ s'._curDrawWorld = s._curDrawWorld ∧ s'.frames = s.frames
          ∧ (∀ n, s._interval = TimerHandle.id n → ∀ t, t ∈ s'.timers → t.id ≠ n)
          ∧ (∀ t, t ∈ s'.timers → t ∈ s.timers)) := by
  constructor
  · intro h
    unfold stop
    rw [h]; rfl
  · intro h
    have hstop : stop s = some { clearInterval s s._interval with
        _interval := TimerHandle.null, _isRunning := false } := by
      unfold stop
      rw [h]; rfl
    refine ⟨_, hstop, rfl, rfl, rfl, ?_, ?_, ?_, ?_, ?_⟩
    · cases hi : s._interval <;> rfl
    · cases hi : s._interval <;> rfl
    · cases hi : s._interval <;> rfl
    · intro n hn t ht
      rw [hn] at ht
      simp only [clearInterval, List.mem_filter, bne_iff_ne, ne_eq] at ht
      exact ht.2
    · intro t ht
      cases hi : s._interval with
      | undefined => rw [hi] at ht; exact ht
      | null => rw [hi] at ht; exact ht
      | id n =>
        rw [hi] at ht
        simp only [clearInterval, List.mem_filter] at ht
        exact ht.1

/-- C17: whatever the state, Idle or Running, when `step()` returns it has left
`_isRunning`, the timer handle and the registered timers exactly as they were; and from
every well-formed state it does return. -/
theorem step_keeps_run_status (s : State) :
    (∀ s', step s = some s' →
      s'._isRunning = s._isRunning ∧ s'._interval = s._interval ∧ s'.timers = s.timers)
    ∧ (stateOk s = true → ∃ s', step s = some s') := by
  constructor
  · intro s' h
    have := step_shell s s' h
    exact ⟨this.1, this.2.1, this.2.2.1⟩
  · intro hs
    have hwf := (stateOk_iff s).1 hs
    obtain ⟨w, hw, _⟩ := hwf.curWorld
    exact ⟨_, step_eq_of_wf s w hwf hw⟩

/-- C15: for any two well-formed states whose current grids are equal (whatever the other
buffer, the current index, the run flag or the timers), `update` returns in both and the
new current grids are equal: the new grid is a function of the old current grid alone,
every cell of the target buffer having been overwritten. -/
theorem update_depends_only_on_current (s t : State) (hs : stateOk s = true)
    (ht : stateOk t = true)
    (heq : jsGet s._worlds s._curDrawWorld = jsGet t._worlds t._curDrawWorld) :
    ∃ s' t' w, update s = some s' ∧ update t = some t'
      ∧ jsGet s._worlds s._curDrawWorld = some w
      ∧ jsGet s'._worlds s'._curDrawWorld = some (nextGen w)
      ∧ jsGet t'._worlds t'._curDrawWorld = some (nextGen w)
      ∧ ∀ y x, cellAt (nextGen w) y x
          = if y < HEIGHT ∧ x < WIDTH
            then some (nextCell (cellAt w y x == some ALIVE) (neighbourCount w y x))
            else none := by
  have hswf := (stateOk_iff s).1 hs
  have htwf := (stateOk_iff t).1 ht
  obtain ⟨w, hw, _⟩ := hswf.curWorld
  have hw2 : jsGet t._worlds t._curDrawWorld = some w := by rw [← heq, hw]
  refine ⟨updated s w, updated t w, w, update_eq_of_wf s w hswf hw,
    update_eq_of_wf t w htwf hw2, hw, updated_curWorld s w, updated_curWorld t w, ?_⟩
  intro y x
  by_cases hy : y < HEIGHT
  · by_cases hx : x < WIDTH
    · rw [if_pos ⟨hy, hx⟩, cellAt_nextGen w y x hy hx]; rfl
    · rw [if_neg (fun h => hx h.2)]
      unfold cellAt
      rw [jsGet_nextGen w y hy, Option.some_bind, jsGet_map_range, if_neg hx]
  · rw [if_neg (fun h => hy h.1)]
    unfold cellAt nextGen
    rw [jsGet_map_range (fun y => (List.range WIDTH).map (fun x =>
      some (nextCell (cellAt w y x == some ALIVE) (neighbourCount w y x)))) HEIGHT y,
      if_neg hy]
    rfl

theorem update_depends_only_on_current_witness :
    (stateOk initState = true ∧ stateOk { initState with _isRunning := true } = true
      ∧ jsGet initState._worlds initState._curDrawWorld
          = jsGet ({ initState with _isRunning := true } : State)._worlds
              ({ initState with _isRunning := true } : State)._curDrawWorld)
    ∧ ∃ s' t' w, update initState = some s'
      ∧ update { initState with _isRunning := true } = some t'
      ∧ jsGet initState._worlds initState._curDrawWorld = some w
      ∧ jsGet s'._worlds s'._curDrawWorld = some (nextGen w)
      ∧ jsGet t'._worlds t'._curDrawWorld = some (nextGen w)
      ∧ ∀ y x, cellAt (nextGen w) y x
          = if y < HEIGHT ∧ x < WIDTH
            then some (nextCell (cellAt w y x == some ALIVE) (neighbourCount w y x))
            else none :=
  ⟨⟨stateOk_initState, stateOk_initState, rfl⟩,
    update_depends_only_on_current initState { initState with _isRunning := true }
      stateOk_initState stateOk_initState rfl⟩

/-- C14: whatever the state, when `update()` returns the current index is
`(current + 1) mod BUFFERS`, which is below `BUFFERS`; and from every well-formed state
(so with a starting index in `[0, BUFFERS)`), `BUFFERS` successive calls of `update()`
return with the current index at its original value, the index being below `BUFFERS`
after each call. -/
theorem buffer_rotation_is_cyclic (s : State) (hs : stateOk s = true) :
    (∀ t t', update t = some t' →
      t'._curDrawWorld = (t._curDrawWorld + 1) % BUFFERS ∧ t'._curDrawWorld < BUFFERS)
    ∧ (∃ s', iterUpdate BUFFERS s = some s' ∧ s'._curDrawWorld = s._curDrawWorld)
    ∧ ∀ k, k ≤ BUFFERS → ∃ t, iterUpdate k s = some t ∧ t._curDrawWorld < BUFFERS := by
  have hwf := (stateOk_iff s).1 hs
  obtain ⟨w, hw, _⟩ := hwf.curWorld
  have h1 := update_eq_of_wf s w hwf hw
  have hwf1 := stateWF_updated s w hwf
  obtain ⟨w1, hw1, _⟩ := hwf1.curWorld
  have h2 := update_eq_of_wf (updated s w) w1 hwf1 hw1
  have hwf2 := stateWF_updated (updated s w) w1 hwf1
  have hiter2 : iterUpdate 2 s = some (updated (updated s w) w1) := by
    simp only [iterUpdate, h1, Option.some_bind, h2]
  have hiter1 : iterUpdate 1 s = some (updated s w) := by
    simp only [iterUpdate, h1, Option.some_bind]
  refine ⟨?_, ⟨_, hiter2, ?_⟩, ?_⟩
  · intro t t' h
    have := update_shell t t' h
    rw [this]
    exact ⟨rfl, Nat.mod_lt _ (by decide)⟩
  · show ((s._curDrawWorld + 1) % BUFFERS + 1) % BUFFERS = s._curDrawWorld
    have := hwf.cur
    have hB : BUFFERS = 2 := rfl
    rw [hB] at this ⊢
    omega
  · intro k hk
    have hB : BUFFERS = 2 := rfl
    rw [hB] at hk
    have : k = 0 ∨ k = 1 ∨ k = 2 := by omega
    rcases this with h | h | h
    · subst h; exact ⟨s, rfl, hwf.cur⟩
    · subst h; exact ⟨_, hiter1, hwf1.cur⟩
    · subst h; exact ⟨_, hiter2, hwf2.cur⟩

theorem buffer_rotation_is_cyclic_witness :
    stateOk initState = true ∧
    ((∀ t t', update t = some t' →
      t'._curDrawWorld = (t._curDrawWorld + 1) % BUFFERS ∧ t'._curDrawWorld < BUFFERS)
    ∧ (∃ s', iterUpdate BUFFERS initState = some s'
        ∧ s'._curDrawWorld = initState._curDrawWorld)
    ∧ ∀ k, k ≤ BUFFERS → ∃ t, iterUpdate k initState = some t ∧ t._curDrawWorld < BUFFERS) :=
  ⟨stateOk_initState, buffer_rotation_is_cyclic initState stateOk_initState⟩

/-- The next generation follows B3/S23 with the clipped Moore neighbourhood count. -/
theorem nextGen_rule (w : World) (hw : WorldWF w) (y x : Nat) (hy : y < HEIGHT)
    (hx : x < WIDTH) :
    cellAt (nextGen w) y x
      = some (if (cellAt w y x = some ALIVE ∧ (mooreCount w y x = 2 ∨ mooreCount w y x = 3))
            ∨ (cellAt w y x = some DEAD ∧ mooreCount w y x = 3) then ALIVE else DEAD) := by
  rw [cellAt_nextGen w y x hy hx, ← neighbourCount_eq_mooreCount w y x hy hx]
  unfold nextCellAt nextCell
  congr 1
  rcases cellAt_of_worldWF hw y x hy hx with hc | hc
  · rw [hc]
    have hb : ((some DEAD : Option Nat) == some ALIVE) = false := by decide
    simp [hb, DEAD, ALIVE]
  · rw [hc]
    simp [DEAD, ALIVE]

/-- C18: from every well-formed state with current grid `G` at index `c`, `step()`
returns having rendered exactly once, the frame painted being that of `G` (its cells
are the in-range positions where `G` is `ALIVE`); afterwards the current index is
`(c + 1) mod BUFFERS`, the current grid is the B3/S23 successor generation of `G`, and
buffer `c` still holds `G`. -/
theorem step_renders_then_computes (s : State) (hs : stateOk s = true) :
    ∃ G s1 s', jsGet s._worlds s._curDrawWorld = some G
      ∧ draw s = some s1 ∧ update s1 = some s' ∧ step s = some s'
      ∧ s1 = { s with frames := s.frames ++ [frameOf G] }
      ∧ s'.frames = s.frames ++ [frameOf G]
      ∧ (∀ x y, (x, y) ∈ frameOf G ↔ y < HEIGHT ∧ x < WIDTH ∧ cellAt G y x = some ALIVE)
      ∧ s'._curDrawWorld = (s._curDrawWorld + 1) % BUFFERS
      ∧ jsGet s'._worlds s._curDrawWorld = some G
      ∧ ∃ G', jsGet s'._worlds s'._curDrawWorld = some G'
          ∧ ∀ y x, y < HEIGHT → x < WIDTH →
            cellAt G' y x
              = some (if (cellAt G y x = some ALIVE
                            ∧ (mooreCount G y x = 2 ∨ mooreCount G y x = 3))
                          ∨ (cellAt G y x = some DEAD ∧ mooreCount G y x = 3)
                      then ALIVE else DEAD) := by
  have hwf := (stateOk_iff s).1 hs
  obtain ⟨G, hG, hGwf⟩ := hwf.curWorld
  refine ⟨G, drawn s G, stepped s G, hG, draw_eq s G hG hGwf.rows_exist,
    update_eq_of_wf (drawn s G) G (stateWF_drawn s G hwf) hG, step_eq_of_wf s G hwf hG,
    rfl, rfl, fun x y => mem_frameOf G x y, rfl, ?_, nextGen G, updated_curWorld _ G, ?_⟩
  · rw [← hG]
    exact updated_prevWorld (drawn s G) G (stateWF_drawn s G hwf)
  · intro y x hy hx
    exact nextGen_rule G hGwf y x hy hx

theorem step_renders_then_computes_witness :
    stateOk (cornerState.getD initState) = true ∧
    ∃ G s1 s', jsGet (cornerState.getD initState)._worlds
          (cornerState.getD initState)._curDrawWorld = some G
      ∧ draw (cornerState.getD initState) = some s1 ∧ update s1 = some s'
      ∧ step (cornerState.getD initState) = some s'
      ∧ s1 = { (cornerState.getD initState) with
                frames := (cornerState.getD initState).frames ++ [frameOf G] }
      ∧ s'.frames = (cornerState.getD initState).frames ++ [frameOf G]
      ∧ (∀ x y, (x, y) ∈ frameOf G ↔ y < HEIGHT ∧ x < WIDTH ∧ cellAt G y x = some ALIVE)
      ∧ s'._curDrawWorld = ((cornerState.getD initState)._curDrawWorld + 1) % BUFFERS
      ∧ jsGet s'._worlds (cornerState.getD initState)._curDrawWorld = some G
      ∧ ∃ G', jsGet s'._worlds s'._curDrawWorld = some G'
          ∧ ∀ y x, y < HEIGHT → x < WIDTH →
            cellAt G' y x
              = some (if (cellAt G y x = some ALIVE
                            ∧ (mooreCount G y x = 2 ∨ mooreCount G y x = 3))
                          ∨ (cellAt G y x = some DEAD ∧ mooreCount G y x = 3)
                      then ALIVE else DEAD) :=
  ⟨by decide, step_renders_then_computes (cornerState.getD initState) (by decide)⟩

/-! ## Doubles: the index computed from `Math.random()` is in range -/

theorem roundTiesEven_bound (p d : Nat) :
    2 * (roundTiesEven p d * 2 ^ d) ≤ 2 * p + 2 ^ d := by
  unfold roundTiesEven
  have hp := Nat.div_add_mod p (2 ^ d)
  have hm : (p / 2 ^ d + 1) * 2 ^ d = p / 2 ^ d * 2 ^ d + 2 ^ d := by ring
  have hc : 2 ^ d * (p / 2 ^ d) = p / 2 ^ d * 2 ^ d := by ring
  simp only []
  split_ifs <;> omega

theorem roundTiesEven_zero (p : Nat) : roundTiesEven p 0 * 2 ^ 0 = p := by
  simp [roundTiesEven, Nat.mod_one]

theorem excessBits_spec (fuel : Nat) :
    ∀ p, excessBits p fuel = 0 ∨ 2 ^ (52 + excessBits p fuel) ≤ p := by
  induction fuel with
  | zero => intro p; left; rfl
  | succ fuel ih =>
    intro p
    unfold excessBits
    by_cases h : p < 2 ^ 53
    · left; rw [if_pos h]
    · right
      rw [if_neg h]
      rcases ih (p / 2) with h0 | h1
      · rw [h0]
        have : 2 ^ (52 + (0 + 1)) = 2 ^ 53 := by norm_num
        rw [this]; omega
      · have e : 2 ^ (52 + (excessBits (p / 2) fuel + 1))
            = 2 * 2 ^ (52 + excessBits (p / 2) fuel) := by
          rw [← Nat.add_assoc, Nat.pow_succ]; ring
        rw [e]; omega

/-- With enough fuel `excessBits` leaves exactly 53 significant bits or fewer. -/
theorem excessBits_exact (fuel : Nat) :
    ∀ p, p < 2 ^ (53 + fuel) → p / 2 ^ excessBits p fuel < 2 ^ 53 := by
  induction fuel with
  | zero =>
    intro p hp
    simpa [excessBits] using hp
  | succ fuel ih =>
    intro p hp
    unfold excessBits
    by_cases h : p < 2 ^ 53
    · rw [if_pos h]
      simpa using h
    · rw [if_neg h]
      have h2 : p / 2 < 2 ^ (53 + fuel) := by
        have e : 2 ^ (53 + (fuel + 1)) = 2 * 2 ^ (53 + fuel) := by
          rw [← Nat.add_assoc, Nat.pow_succ]; ring
        rw [e] at hp
        omega
      have := ih (p / 2) h2
      rw [Nat.pow_succ, Nat.mul_comm, ← Nat.div_div_eq_div_mul]
      exact this

/-- The rounded product of a double in `[0, 1)` with a constant `c` of mantissa at least
2 and exponent at most 1 is strictly below `c`. -/
theorem Double.mul_mant_lt (r c : Double) (hr : r.IsUnit) (hc : 2 ≤ c.mant) (hce : c.exp ≤ 1) :
    (Double.mul r c).mant < c.mant * 2 ^ r.exp := by
  obtain ⟨⟨hm53, hexp⟩, hlt⟩ := hr
  unfold Double.mul
  simp only []
  have h1 : (r.mant + 1) * c.mant ≤ 2 ^ r.exp * c.mant := Nat.mul_le_mul_right _ hlt
  have h2 : (r.mant + 1) * c.mant ≤ 2 ^ 53 * c.mant := Nat.mul_le_mul_right _ hm53
  have h3 : (r.mant + 1) * c.mant = r.mant * c.mant + c.mant := by ring
  have h4 : c.mant * 2 ^ r.exp = 2 ^ r.exp * c.mant := by ring
  have h53 : (2 : Nat) ^ 53 = 9007199254740992 := by norm_num
  rw [h3] at h1 h2
  rw [h53] at h2
  rw [h4]
  have hD : 2 ^ excessBits (r.mant * c.mant) 64 < 2 * c.mant := by
    rcases excessBits_spec 64 (r.mant * c.mant) with h0 | hge
    · rw [h0]; omega
    · have e : (2 : Nat) ^ (52 + excessBits (r.mant * c.mant) 64)
          = 4503599627370496 * 2 ^ excessBits (r.mant * c.mant) 64 := by
        rw [Nat.pow_add]
      rw [e] at hge
      omega
  have hK : 2 ^ (r.exp + c.exp - 1074) < 2 * c.mant := by
    have : r.exp + c.exp - 1074 = 0 ∨ r.exp + c.exp - 1074 = 1 := by omega
    rcases this with h | h
    · rw [h]; omega
    · rw [h]; omega
  have hmax : 2 ^ max (excessBits (r.mant * c.mant) 64) (r.exp + c.exp - 1074) < 2 * c.mant := by
    rcases max_choice (excessBits (r.mant * c.mant) 64) (r.exp + c.exp - 1074) with h | h
    · rw [h]; exact hD
    · rw [h]; exact hK
  have hb := roundTiesEven_bound (r.mant * c.mant)
    (max (excessBits (r.mant * c.mant) 64) (r.exp + c.exp - 1074))
  omega

theorem Double.floor_mul_ofNat_lt (r : Double) (hr : r.IsUnit) (n : Nat) (hn : 2 ≤ n) :
    (Double.mul r (Double.ofNat n)).floor < n := by
  have h := Double.mul_mant_lt r (Double.ofNat n) hr hn (by simp [Double.ofNat])
  unfold Double.floor
  have he : (Double.mul r (Double.ofNat n)).exp = r.exp := by simp [Double.mul, Double.ofNat]
  rw [he, Nat.div_lt_iff_lt_mul (Nat.pos_pow_of_pos _ (by decide))]
  exact h

/-! ## Writing cells into the current world -/

theorem jsSet_jsSet {α : Type} (a : JsArray α) (i : Nat) (v v' : α) :
    jsSet (jsSet a i v) i v' = jsSet a i v' := by
  apply jsArray_ext
  · simp only [length_jsSet]; omega
  · intro j _
    simp only [jsGet_jsSet]
    split <;> rfl

theorem setAt_eq (w : World) (y x v : Nat) (r : Row) (hr : jsGet w y = some r) :
    setAt w y x v = jsSet w y (jsSet r x v) := by
  unfold setAt
  rw [hr]

theorem worldWF_setAt (w : World) (y x v : Nat) (hw : WorldWF w) (hy : y < HEIGHT)
    (hx : x < WIDTH) (hv : v = DEAD ∨ v = ALIVE) : WorldWF (setAt w y x v) := by
  obtain ⟨r, hr, hrwf⟩ := hw.rows y hy
  rw [setAt_eq w y x v r hr]
  refine ⟨by rw [length_jsSet_of_lt _ _ _ (by rw [hw.len]; exact hy), hw.len], ?_⟩
  intro y' hy'
  rw [jsGet_jsSet]
  by_cases h : y' = y
  · rw [if_pos h]
    refine ⟨_, rfl, by rw [length_jsSet_of_lt _ _ _ (by rw [hrwf.len]; exact hx), hrwf.len], ?_⟩
    intro x' hx'
    rw [jsGet_jsSet]
    by_cases h2 : x' = x
    · rw [if_pos h2]
      rcases hv with hv | hv
      · left; rw [hv]
      · right; rw [hv]
    · rw [if_neg h2]; exact hrwf.cells x' hx'
  · rw [if_neg h]; exact hw.rows y' hy'

theorem cellAt_setAt (w : World) (y x v y' x' : Nat) (hw : WorldWF w) (hy : y < HEIGHT) :
    cellAt (setAt w y x v) y' x'
      = if y' = y ∧ x' = x then some v else cellAt w y' x' := by
  obtain ⟨r, hr, _⟩ := hw.rows y hy
  rw [setAt_eq w y x v r hr]
  unfold cellAt
  rw [jsGet_jsSet]
  by_cases h : y' = y
  · subst h
    rw [if_pos rfl, Option.some_bind, jsGet_jsSet, hr, Option.some_bind]
    by_cases h2 : x' = x
    · rw [if_pos h2, if_pos ⟨rfl, h2⟩]
    · rw [if_neg h2, if_neg (fun h3 => h2 h3.2)]
  · rw [if_neg h, if_neg (fun h3 => h h3.1)]

theorem stateWF_setWorld (s : State) (k : Nat) (w : World) (hs : StateWF s) (hk : k < BUFFERS)
    (hw : WorldWF w) : StateWF (withWorlds s (jsSet s._worlds k w)) := by
  refine ⟨?_, ?_, hs.cur⟩
  · show (jsSet s._worlds k w).length = _
    rw [length_jsSet_of_lt _ _ _ (by rw [hs.len]; exact hk), hs.len]
  · intro j hj
    show ∃ w', jsGet (jsSet s._worlds k w) j = some w' ∧ _
    rw [jsGet_jsSet]
    split
    · exact ⟨w, rfl, hw⟩
    · exact hs.bufs j hj

theorem worldWF_stampAll (ps : List (Nat × Nat)) :
    ∀ w, WorldWF w → (∀ p, p ∈ ps → p.1 < HEIGHT ∧ p.2 < WIDTH) → WorldWF (stampAll ps w) := by
  induction ps with
  | nil => intro w hw _; exact hw
  | cons p ps ih =>
    intro w hw hps
    have hp := hps p (List.mem_cons_self _ _)
    exact ih _ (worldWF_setAt w p.1 p.2 ALIVE hw hp.1 hp.2 (Or.inr rfl))
      (fun q hq => hps q (List.mem_cons_of_mem _ hq))

theorem cellAt_stampAll (ps : List (Nat × Nat)) :
    ∀ w, WorldWF w → (∀ p, p ∈ ps → p.1 < HEIGHT ∧ p.2 < WIDTH) → ∀ y x,
      cellAt (stampAll ps w) y x = if (y, x) ∈ ps then some ALIVE else cellAt w y x := by
  induction ps with
  | nil => intro w _ _ y x; simp [stampAll]
  | cons p ps ih =>
    intro w hw hps y x
    have hp := hps p (List.mem_cons_self _ _)
    have hwf := worldWF_setAt w p.1 p.2 ALIVE hw hp.1 hp.2 (Or.inr rfl)
    have h1 := ih _ hwf (fun q hq => hps q (List.mem_cons_of_mem _ hq)) y x
    show cellAt (stampAll ps (setAt w p.1 p.2 ALIVE)) y x = _
    rw [h1, cellAt_setAt w p.1 p.2 ALIVE y x hw hp.1]
    by_cases hin : (y, x) ∈ ps
    · rw [if_pos hin, if_pos (List.mem_cons_of_mem _ hin)]
    · rw [if_neg hin]
      by_cases hpe : y = p.1 ∧ x = p.2
      · rw [if_pos hpe, if_pos]
        rw [hpe.1, hpe.2]
        exact List.mem_cons_self _ _
      · rw [if_neg hpe, if_neg]
        intro hmem
        rcases List.mem_cons.1 hmem with h | h
        · apply hpe
          rw [← h]
          exact ⟨rfl, rfl⟩
        · exact hin h

/-- Marking in-range cells of the current world of a well-formed state, one `setCell`
after another, returns the state with those cells stamped. -/
theorem stampState_eq (ps : List (Nat × Nat)) :
    ∀ (s : State) (w : World), StateWF s → jsGet s._worlds s._curDrawWorld = some w →
      WorldWF w → (∀ p, p ∈ ps → p.1 < HEIGHT ∧ p.2 < WIDTH) →
      ps.foldlM (fun s p => setCell s s._curDrawWorld p.1 p.2 ALIVE) s
        = some (withWorlds s (jsSet s._worlds s._curDrawWorld (stampAll ps w))) := by
  induction ps with
  | nil =>
    intro s w hs hw _ _
    have : jsSet s._worlds s._curDrawWorld (stampAll [] w) = s._worlds := by
      apply jsArray_ext
      · rw [length_jsSet_of_lt _ _ _ (jsGet_lt_of_some _ _ _ hw)]
      · intro j _
        rw [jsGet_jsSet]
        split
        · rename_i h; rw [h, hw]; rfl
        · rfl
    rw [this]
    rfl
  | cons p ps ih =>
    intro s w hs hw hwwf hps
    have hp := hps p (List.mem_cons_self _ _)
    obtain ⟨r, hr, _⟩ := hwwf.rows p.1 hp.1
    rw [List.foldlM_cons, setCell_eq s s._curDrawWorld p.1 p.2 ALIVE w r hw hr,
      ← setAt_eq w p.1 p.2 ALIVE r hr]
    have hwf1 := worldWF_setAt w p.1 p.2 ALIVE hwwf hp.1 hp.2 (Or.inr rfl)
    have hs1 := stateWF_setWorld s s._curDrawWorld _ hs hs.cur hwf1
    have hcur1 : jsGet (withWorlds s (jsSet s._worlds s._curDrawWorld
        (setAt w p.1 p.2 ALIVE)))._worlds
        (withWorlds s (jsSet s._worlds s._curDrawWorld (setAt w p.1 p.2 ALIVE)))._curDrawWorld
        = some (setAt w p.1 p.2 ALIVE) := by
      show jsGet (jsSet s._worlds s._curDrawWorld _) s._curDrawWorld = _
      rw [jsGet_jsSet_self]
    have := ih _ _ hs1 hcur1 hwf1 (fun q hq => hps q (List.mem_cons_of_mem _ hq))
    rw [Option.bind_eq_bind, Option.some_bind, this]
    show some (withWorlds s (jsSet (jsSet s._worlds s._curDrawWorld _) s._curDrawWorld _)) = _
    rw [jsSet_jsSet]
    rfl

/-! ## Seeding -/

theorem createGlider_eq (s : State) (x y : Nat) :
    createGlider s x y
      = (gliderCells x y).foldlM (fun s p => setCell s s._curDrawWorld p.1 p.2 ALIVE) s := by
  unfold createGlider gliderCells
  simp only [List.foldlM_cons, List.foldlM_nil, bind_pure]

theorem randomCells_in_range (rnd : Nat → Double) (hr : ∀ k, (rnd k).IsUnit) :
    ∀ p, p ∈ randomCells rnd → p.1 < HEIGHT ∧ p.2 < WIDTH := by
  intro p hp
  unfold randomCells at hp
  rw [List.mem_map] at hp
  obtain ⟨i, _, rfl⟩ := hp
  exact ⟨Double.floor_mul_ofNat_lt _ (hr _) HEIGHT (by decide),
    Double.floor_mul_ofNat_lt _ (hr _) WIDTH (by decide)⟩

theorem gliderX_bound (r : Double) (hr : r.IsUnit) (i : Nat) :
    gliderX r i = 8 * i ∨ gliderX r i = 8 * i + 1 := by
  unfold gliderX
  have h := Double.floor_mul_ofNat_lt r hr (bucketSize - 6) (by decide)
  have h6 : bucketSize - 6 = 2 := by decide
  have h8 : bucketSize = 8 := by decide
  rw [h6] at h ⊢
  rw [h8]
  omega

theorem gliderY_bound (r : Double) (hr : r.IsUnit) : gliderY r ≤ 12 := by
  unfold gliderY Double.floor
  have h := Double.mul_mant_lt r ⟨WIDTH, 1⟩ hr (by decide) (by decide)
  have he : (Double.mul r ⟨WIDTH, 1⟩).exp = r.exp + 1 := by simp [Double.mul]
  rw [he]
  have hW : WIDTH = 25 := rfl
  simp only [hW] at h ⊢
  have h2 : (Double.mul r ⟨25, 1⟩).mant / 2 ^ (r.exp + 1) < 13 := by
    rw [Nat.div_lt_iff_lt_mul (Nat.pos_pow_of_pos _ (by decide)), Nat.pow_succ]
    omega
  omega

theorem gliderCells_in_range (x y : Nat) (hx : x + 2 < WIDTH) (hy : y + 2 < HEIGHT) :
    ∀ p, p ∈ gliderCells x y → p.1 < HEIGHT ∧ p.2 < WIDTH := by
  intro p hp
  unfold gliderCells at hp
  simp only [List.mem_cons, List.mem_singleton, List.not_mem_nil, or_false] at hp
  rcases hp with h | h | h | h | h <;> (rw [h]; exact ⟨by simp only []; omega, by simp only []; omega⟩)

theorem gliderSeedCells_in_range (rnd : Nat → Double) (hr : ∀ k, (rnd k).IsUnit) :
    ∀ p, p ∈ gliderSeedCells rnd → p.1 < HEIGHT ∧ p.2 < WIDTH := by
  intro p hp
  have hW : WIDTH = 25 := rfl
  have hH : HEIGHT = 25 := rfl
  unfold gliderSeedCells at hp
  simp only [List.mem_append] at hp
  have y1 := gliderY_bound (rnd 1) (hr 1)
  have y3 := gliderY_bound (rnd 3) (hr 3)
  have y5 := gliderY_bound (rnd 5) (hr 5)
  have x0 := gliderX_bound (rnd 0) (hr 0) 0
  have x2 := gliderX_bound (rnd 2) (hr 2) 1
  have x4 := gliderX_bound (rnd 4) (hr 4) 2
  rcases hp with h | h | h
  · exact gliderCells_in_range _ _ (by rw [hW]; omega) (by rw [hH]; omega) p h
  · exact gliderCells_in_range _ _ (by rw [hW]; omega) (by rw [hH]; omega) p h
  · exact gliderCells_in_range _ _ (by rw [hW]; omega) (by rw [hH]; omega) p h

theorem seedRandom_eq (rnd : Nat → Double) (s : State) (hr : ∀ k, (rnd k).IsUnit)
    (hs : StateWF s) : seedRandom rnd s = some (seeded s (randomCells rnd)) := by
  obtain ⟨w0, hw0, hw0wf⟩ := hs.curWorld
  unfold seedRandom
  rw [hw0, Option.bind_eq_bind, Option.some_bind, emptyWorld_eq w0 (by rw [hw0wf.len])]
  have hs1 : StateWF (withWorlds s (jsSet s._worlds s._curDrawWorld deadWorld)) :=
    stateWF_setWorld s _ _ hs hs.cur worldWF_deadWorld
  have hcur : jsGet (withWorlds s (jsSet s._worlds s._curDrawWorld deadWorld))._worlds
      (withWorlds s (jsSet s._worlds s._curDrawWorld deadWorld))._curDrawWorld = some deadWorld := by
    show jsGet (jsSet s._worlds s._curDrawWorld _) s._curDrawWorld = _
    rw [jsGet_jsSet_self]
  have h := stampState_eq (randomCells rnd) _ deadWorld hs1 hcur worldWF_deadWorld
    (randomCells_in_range rnd hr)
  unfold randomCells at h
  rw [List.foldlM_map] at h
  show (List.range randomCount).foldlM _
    (withWorlds s (jsSet s._worlds s._curDrawWorld deadWorld)) = _
  rw [h]
  show some (withWorlds s (jsSet (jsSet s._worlds s._curDrawWorld _) s._curDrawWorld _)) = _
  rw [jsSet_jsSet]
  rfl

theorem seedGliders_eq (rnd : Nat → Double) (s : State) (hr : ∀ k, (rnd k).IsUnit)
    (hs : StateWF s) : seedGliders rnd s = some (seeded s (gliderSeedCells rnd)) := by
  obtain ⟨w0, hw0, hw0wf⟩ := hs.curWorld
  unfold seedGliders
  rw [hw0, Option.bind_eq_bind, Option.some_bind, emptyWorld_eq w0 (by rw [hw0wf.len])]
  have hs1 : StateWF (withWorlds s (jsSet s._worlds s._curDrawWorld deadWorld)) :=
    stateWF_setWorld s _ _ hs hs.cur worldWF_deadWorld
  have hcur : jsGet (withWorlds s (jsSet s._worlds s._curDrawWorld deadWorld))._worlds
      (withWorlds s (jsSet s._worlds s._curDrawWorld deadWorld))._curDrawWorld = some deadWorld := by
    show jsGet (jsSet s._worlds s._curDrawWorld _) s._curDrawWorld = _
    rw [jsGet_jsSet_self]
  have h := stampState_eq (gliderSeedCells rnd) _ deadWorld hs1 hcur worldWF_deadWorld
    (gliderSeedCells_in_range rnd hr)
  unfold gliderSeedCells at h
  simp only [List.foldlM_append] at h
  have hrange : List.range numGliders = [0, 1, 2] := by decide
  show (List.range numGliders).foldlM _
    (withWorlds s (jsSet s._worlds s._curDrawWorld deadWorld)) = _
  rw [hrange]
  simp only [List.foldlM_cons, List.foldlM_nil, createGlider_eq, bind_pure]
  rw [h]
  show some (withWorlds s (jsSet (jsSet s._worlds s._curDrawWorld _) s._curDrawWorld _)) = _
  rw [jsSet_jsSet]
  rfl

theorem stateWF_seeded (s : State) (ps : List (Nat × Nat)) (hs : StateWF s)
    (hps : ∀ p, p ∈ ps → p.1 < HEIGHT ∧ p.2 < WIDTH) : StateWF (seeded s ps) :=
  stateWF_setWorld s _ _ hs hs.cur (worldWF_stampAll ps deadWorld worldWF_deadWorld hps)

theorem seeded_curWorld (s : State) (ps : List (Nat × Nat)) :
    jsGet (seeded s ps)._worlds (seeded s ps)._curDrawWorld = some (stampAll ps deadWorld) := by
  show jsGet (jsSet s._worlds s._curDrawWorld _) s._curDrawWorld = _
  rw [jsGet_jsSet_self]

theorem spreadRnd_isUnit (k : Nat) : (spreadRnd k).IsUnit := by
  unfold spreadRnd Double.IsUnit Double.IsDouble
  have h53 : (2 : Nat) ^ 53 = 9007199254740992 := by norm_num
  have h10 : (2 : Nat) ^ 10 = 1024 := by norm_num
  simp only [h53, h10]
  split <;> omega

/-- C7: for every `Math.random()` result `r` in `[0, 1)` the row index
`floor(r * HEIGHT)` is below `HEIGHT` and the column index `floor(r * WIDTH)` is below
`WIDTH` (the products being double multiplications); so from every well-formed state the
clear-and-place phase of `populateRandom` returns, every write having hit an existing
cell, and the seeded grid is exactly `HEIGHT` rows by `WIDTH` columns. -/
theorem populateRandom_stays_in_bounds (rnd : Nat → Double) (hr : ∀ k, (rnd k).IsUnit)
    (s : State) (hs : stateOk s = true) :
    (∀ r : Double, r.IsUnit →
      (Double.mul r (Double.ofNat HEIGHT)).floor < HEIGHT
      ∧ (Double.mul r (Double.ofNat WIDTH)).floor < WIDTH)
    ∧ (∀ p, p ∈ randomCells rnd → p.1 < HEIGHT ∧ p.2 < WIDTH)
    ∧ ∃ s' w, seedRandom rnd s = some s' ∧ stateOk s' = true
        ∧ jsGet s'._worlds s'._curDrawWorld = some w ∧ worldOk w = true
        ∧ w = stampAll (randomCells rnd) deadWorld := by
  have hwf := (stateOk_iff s).1 hs
  have hin := randomCells_in_range rnd hr
  refine ⟨fun r h => ⟨Double.floor_mul_ofNat_lt r h HEIGHT (by decide),
    Double.floor_mul_ofNat_lt r h WIDTH (by decide)⟩, hin, seeded s (randomCells rnd), _,
    seedRandom_eq rnd s hr hwf, (stateOk_iff _).2 (stateWF_seeded s _ hwf hin),
    seeded_curWorld s _, ?_, rfl⟩
  exact (worldOk_iff _).2 (worldWF_stampAll _ deadWorld worldWF_deadWorld hin)

theorem populateRandom_stays_in_bounds_witness :
    ((∀ k, (spreadRnd k).IsUnit) ∧ stateOk initState = true) ∧
    ((∀ r : Double, r.IsUnit →
      (Double.mul r (Double.ofNat HEIGHT)).floor < HEIGHT
      ∧ (Double.mul r (Double.ofNat WIDTH)).floor < WIDTH)
    ∧ (∀ p, p ∈ randomCells spreadRnd → p.1 < HEIGHT ∧ p.2 < WIDTH)
    ∧ ∃ s' w, seedRandom spreadRnd initState = some s' ∧ stateOk s' = true
        ∧ jsGet s'._worlds s'._curDrawWorld = some w ∧ worldOk w = true
        ∧ w = stampAll (randomCells spreadRnd) deadWorld) :=
  ⟨⟨spreadRnd_isUnit, stateOk_initState⟩,
    populateRandom_stays_in_bounds spreadRnd spreadRnd_isUnit initState stateOk_initState⟩

/-- C8: in the 25x25 configuration `numGliders` is 3 and `bucketSize` is 8, and for every
sequence of `Math.random()` results in `[0, 1)` glider `i` is created at an origin with
`x` in `{8 i, 8 i + 1}` and `y` at most 12, so `x + 2 < WIDTH` and `y + 2 < HEIGHT`; all
the cells `createGlider` stamps exist, and from every well-formed state the
clear-and-place phase of `populateGliders` returns a well-formed state. -/
theorem populateGliders_stays_in_bounds (rnd : Nat → Double) (hr : ∀ k, (rnd k).IsUnit)
    (s : State) (hs : stateOk s = true) :
    numGliders = 3 ∧ bucketSize = 8
    ∧ (∀ i, i < numGliders →
        (gliderX (rnd (2 * i)) i = 8 * i ∨ gliderX (rnd (2 * i)) i = 8 * i + 1)
        ∧ gliderY (rnd (2 * i + 1)) ≤ 12
        ∧ gliderX (rnd (2 * i)) i + 2 < WIDTH ∧ gliderY (rnd (2 * i + 1)) + 2 < HEIGHT
        ∧ ∀ p, p ∈ gliderCells (gliderX (rnd (2 * i)) i) (gliderY (rnd (2 * i + 1))) →
            p.1 < HEIGHT ∧ p.2 < WIDTH)
    ∧ ∃ s', seedGliders rnd s = some s' ∧ stateOk s' = true := by
  have hwf := (stateOk_iff s).1 hs
  have hn : numGliders = 3 := by decide
  refine ⟨hn, by decide, ?_, seeded s (gliderSeedCells rnd), seedGliders_eq rnd s hr hwf,
    (stateOk_iff _).2 (stateWF_seeded s _ hwf (gliderSeedCells_in_range rnd hr))⟩
  intro i hi
  rw [hn] at hi
  have hx := gliderX_bound (rnd (2 * i)) (hr _) i
  have hy := gliderY_bound (rnd (2 * i + 1)) (hr _)
  have hW : WIDTH = 25 := rfl
  have hH : HEIGHT = 25 := rfl
  have hxw : gliderX (rnd (2 * i)) i + 2 < WIDTH := by rw [hW]; omega
  have hyh : gliderY (rnd (2 * i + 1)) + 2 < HEIGHT := by rw [hH]; omega
  exact ⟨hx, hy, hxw, hyh, gliderCells_in_range _ _ hxw hyh⟩

theorem populateGliders_stays_in_bounds_witness :
    ((∀ k, (spreadRnd k).IsUnit) ∧ stateOk initState = true) ∧
    (numGliders = 3 ∧ bucketSize = 8
    ∧ (∀ i, i < numGliders →
        (gliderX (spreadRnd (2 * i)) i = 8 * i ∨ gliderX (spreadRnd (2 * i)) i = 8 * i + 1)
        ∧ gliderY (spreadRnd (2 * i + 1)) ≤ 12
        ∧ gliderX (spreadRnd (2 * i)) i + 2 < WIDTH
        ∧ gliderY (spreadRnd (2 * i + 1)) + 2 < HEIGHT
        ∧ ∀ p, p ∈ gliderCells (gliderX (spreadRnd (2 * i)) i)
              (gliderY (spreadRnd (2 * i + 1))) →
            p.1 < HEIGHT ∧ p.2 < WIDTH)
    ∧ ∃ s', seedGliders spreadRnd initState = some s' ∧ stateOk s' = true) :=
  ⟨⟨spreadRnd_isUnit, stateOk_initState⟩,
    populateGliders_stays_in_bounds spreadRnd spreadRnd_isUnit initState stateOk_initState⟩

/-! ## Counting live cells -/

theorem randomCount_eq : randomCount = 188 := by decide

theorem liveCount_deadWorld : liveCount deadWorld = 0 := by decide

theorem list_sum_map_range (f : Nat → Nat) (n : Nat) :
    ((List.range n).map f).sum = ∑ i in Finset.range n, f i := by
  induction n with
  | zero => rfl
  | succ n ih =>
    rw [List.range_succ, List.map_append, List.sum_append, ih, Finset.sum_range_succ]
    simp

theorem filter_length_range (p : Nat → Bool) (n : Nat) :
    ((List.range n).filter p).length = ∑ i in Finset.range n, (if p i then 1 else 0) := by
  induction n with
  | zero => rfl
  | succ n ih =>
    rw [List.range_succ, List.filter_append, List.length_append, ih, Finset.sum_range_succ]
    congr 1
    by_cases h : p n = true
    · simp [h]
    · simp [h]

theorem liveCount_eq_sum (w : World) :
    liveCount w = ∑ y in Finset.range HEIGHT, ∑ x in Finset.range WIDTH,
      (if cellAt w y x = some ALIVE then 1 else 0) := by
  unfold liveCount
  rw [list_sum_map_range]
  apply Finset.sum_congr rfl
  intro y _
  rw [filter_length_range]
  apply Finset.sum_congr rfl
  intro x _
  simp only [beq_iff_eq]

theorem sum_sum_update (f g : Nat → Nat → Nat) (n m y x d : Nat) (hy : y < n) (hx : x < m)
    (h : ∀ y' x', g y' x' = f y' x' + (if y' = y then (if x' = x then d else 0) else 0)) :
    ∑ y' in Finset.range n, ∑ x' in Finset.range m, g y' x'
      = (∑ y' in Finset.range n, ∑ x' in Finset.range m, f y' x') + d := by
  simp only [h, Finset.sum_add_distrib]
  congr 1
  have inner : ∀ y', ∑ x' in Finset.range m, (if y' = y then (if x' = x then d else 0) else 0)
      = if y' = y then d else 0 := by
    intro y'
    by_cases h1 : y' = y
    · simp only [h1, if_true]
      rw [Finset.sum_ite_eq' (Finset.range m) x, if_pos (Finset.mem_range.2 hx)]
    · simp only [h1, if_false]
      exact Finset.sum_const_zero
  simp only [inner]
  rw [Finset.sum_ite_eq' (Finset.range n) y, if_pos (Finset.mem_range.2 hy)]

theorem liveCount_setAt (w : World) (y x : Nat) (hw : WorldWF w) (hy : y < HEIGHT)
    (hx : x < WIDTH) :
    liveCount (setAt w y x ALIVE)
      = liveCount w + (if cellAt w y x = some ALIVE then 0 else 1) := by
  rw [liveCount_eq_sum, liveCount_eq_sum]
  apply sum_sum_update (fun y' x' => if cellAt w y' x' = some ALIVE then 1 else 0)
    (fun y' x' => if cellAt (setAt w y x ALIVE) y' x' = some ALIVE then 1 else 0)
    HEIGHT WIDTH y x _ hy hx
  intro y' x'
  show (if cellAt (setAt w y x ALIVE) y' x' = some ALIVE then 1 else 0)
    = (if cellAt w y' x' = some ALIVE then 1 else 0)
      + (if y' = y then (if x' = x then (if cellAt w y x = some ALIVE then 0 else 1) else 0)
          else 0)
  rw [cellAt_setAt w y x ALIVE y' x' hw hy]
  by_cases h1 : y' = y
  · by_cases h2 : x' = x
    · subst h1; subst h2
      simp only [and_self, if_true]
      split <;> rfl
    · simp [h1, h2]
  · simp [h1]

theorem liveCount_stampAll_le (ps : List (Nat × Nat)) :
    ∀ w, WorldWF w → (∀ p, p ∈ ps → p.1 < HEIGHT ∧ p.2 < WIDTH) →
      liveCount (stampAll ps w) ≤ liveCount w + ps.length := by
  induction ps with
  | nil => intro w _ _; simp [stampAll]
  | cons p ps ih =>
    intro w hw hps
    have hp := hps p (List.mem_cons_self _ _)
    have hwf := worldWF_setAt w p.1 p.2 ALIVE hw hp.1 hp.2 (Or.inr rfl)
    have h1 := ih _ hwf (fun q hq => hps q (List.mem_cons_of_mem _ hq))
    have h2 := liveCount_setAt w p.1 p.2 hw hp.1 hp.2
    show liveCount (stampAll ps (setAt w p.1 p.2 ALIVE)) ≤ _
    rw [List.length_cons]
    split at h2 <;> omega

theorem liveCount_stampAll_nodup (ps : List (Nat × Nat)) :
    ∀ w, WorldWF w → (∀ p, p ∈ ps → p.1 < HEIGHT ∧ p.2 < WIDTH) → ps.Nodup →
      (∀ p, p ∈ ps → cellAt w p.1 p.2 ≠ some ALIVE) →
      liveCount (stampAll ps w) = liveCount w + ps.length := by
  induction ps with
  | nil => intro w _ _ _ _; simp [stampAll]
  | cons p ps ih =>
    intro w hw hps hnd hdead
    have hp := hps p (List.mem_cons_self _ _)
    have hwf := worldWF_setAt w p.1 p.2 ALIVE hw hp.1 hp.2 (Or.inr rfl)
    rw [List.nodup_cons] at hnd
    have h1 := ih _ hwf (fun q hq => hps q (List.mem_cons_of_mem _ hq)) hnd.2 (by
      intro q hq
      rw [cellAt_setAt w p.1 p.2 ALIVE q.1 q.2 hw hp.1]
      have hne : ¬ (q.1 = p.1 ∧ q.2 = p.2) := by
        intro h
        have : q = p := Prod.ext h.1 h.2
        rw [this] at hq
        exact hnd.1 hq
      rw [if_neg hne]
      exact hdead q (List.mem_cons_of_mem _ hq))
    have h2 := liveCount_setAt w p.1 p.2 hw hp.1 hp.2
    rw [if_neg (hdead p (List.mem_cons_self _ _))] at h2
    show liveCount (stampAll ps (setAt w p.1 p.2 ALIVE)) = _
    rw [h1, h2, List.length_cons]
    omega

/-- C6 (as amended): for every sequence of `Math.random()` results in `[0, 1)`, the grid
seeded by the clear-and-place phase of `populateRandom` contains at most 188 `ALIVE`
cells, because exactly 188 positions are chosen: the loop runs for every `i` below the
double `WIDTH * HEIGHT * 0.3 = 187.5`, that is for `i = 0, ..., 187`. -/
theorem populateRandom_live_count (rnd : Nat → Double) (hr : ∀ k, (rnd k).IsUnit)
    (s : State) (hs : stateOk s = true) :
    Double.mul (Double.ofNat (WIDTH * HEIGHT)) dbl0_3 = ⟨3377699720527872000, 54⟩
    ∧ (∀ i, Double.natLt i (Double.mul (Double.ofNat (WIDTH * HEIGHT)) dbl0_3) = true ↔ i < 188)
    ∧ randomCount = 188 ∧ (randomCells rnd).length = 188
    ∧ ∃ s' w, seedRandom rnd s = some s' ∧ jsGet s'._worlds s'._curDrawWorld = some w
        ∧ liveCount w ≤ 188 := by
  have hwf := (stateOk_iff s).1 hs
  have hin := randomCells_in_range rnd hr
  have hlen : (randomCells rnd).length = 188 := by
    unfold randomCells
    rw [List.length_map, List.length_range, randomCount_eq]
  have hmul : Double.mul (Double.ofNat (WIDTH * HEIGHT)) dbl0_3
      = ⟨3377699720527872000, 54⟩ := by decide
  refine ⟨hmul, ?_, randomCount_eq, hlen, seeded s (randomCells rnd), _,
    seedRandom_eq rnd s hr hwf, seeded_curWorld s _, ?_⟩
  · intro i
    rw [hmul]
    unfold Double.natLt
    simp only [decide_eq_true_eq]
    have : (2 : Nat) ^ 54 = 18014398509481984 := by norm_num
    rw [this]
    omega
  · have := liveCount_stampAll_le (randomCells rnd) deadWorld worldWF_deadWorld hin
    rw [liveCount_deadWorld, hlen] at this
    omega

theorem populateRandom_live_count_witness :
    ((∀ k, (spreadRnd k).IsUnit) ∧ stateOk initState = true) ∧
    (Double.mul (Double.ofNat (WIDTH * HEIGHT)) dbl0_3 = ⟨3377699720527872000, 54⟩
    ∧ (∀ i, Double.natLt i (Double.mul (Double.ofNat (WIDTH * HEIGHT)) dbl0_3) = true ↔ i < 188)
    ∧ randomCount = 188 ∧ (randomCells spreadRnd).length = 188
    ∧ ∃ s' w, seedRandom spreadRnd initState = some s'
        ∧ jsGet s'._worlds s'._curDrawWorld = some w ∧ liveCount w ≤ 188) :=
  ⟨⟨spreadRnd_isUnit, stateOk_initState⟩,
    populateRandom_live_count spreadRnd spreadRnd_isUnit initState stateOk_initState⟩

set_option maxRecDepth 1000000 in
/-- C6 (as stated) fails: with `Math.random()` results in `[0, 1)` that select the 188
distinct cells `(i / 25, i mod 25)`, `i = 0, ..., 187`, the clear-and-place phase of
`populateRandom` run from the initial state leaves 188 `ALIVE` cells, more than 187. -/
theorem populateRandom_can_seed_188 :
    (∀ k, (spreadRnd k).IsUnit) ∧ stateOk initState = true
    ∧ seededLiveCount spreadRnd initState = some 188
    ∧ ¬ (∀ n, seededLiveCount spreadRnd initState = some n → n ≤ 187) :=
  ⟨spreadRnd_isUnit, stateOk_initState, by decide, fun h => absurd (h 188 (by decide)) (by decide)⟩

theorem gliderCells_nodup (x0 x1 x2 y0 y1 y2 : Nat) (h01 : x0 + 2 < x1) (h12 : x1 + 2 < x2) :
    (gliderCells x0 y0 ++ (gliderCells x1 y1 ++ gliderCells x2 y2)).Nodup := by
  unfold gliderCells
  simp only [List.cons_append, List.nil_append, List.nodup_cons, List.mem_cons, Prod.mk.injEq,
    List.not_mem_nil, or_false, List.nodup_nil, and_true, not_or, not_and]
  repeat' apply And.intro
  all_goals (intros; first | omega | exact not_false)

theorem gliderSeed_columns (rnd : Nat → Double) (hr : ∀ k, (rnd k).IsUnit) :
    gliderX (rnd 0) 0 + 2 < gliderX (rnd 2) 1 ∧ gliderX (rnd 2) 1 + 2 < gliderX (rnd 4) 2 := by
  have x0 := gliderX_bound (rnd 0) (hr 0) 0
  have x2 := gliderX_bound (rnd 2) (hr 2) 1
  have x4 := gliderX_bound (rnd 4) (hr 4) 2
  omega

/-- C20: in the 25x25 configuration, for every sequence of `Math.random()` results in
`[0, 1)`, the grid seeded by `populateGliders` (before its trailing `step()`) has exactly
`min(3, floor(WIDTH / 5)) * 5 = 15` `ALIVE` cells: they are, for each `i` in `{0, 1, 2}`,
the five cells of `createGlider(x_i, y_i)` with `x_i` in `{8 i, 8 i + 1}`, and the three
stamps occupy pairwise disjoint column ranges `[x_i, x_i + 2]`. -/
theorem populateGliders_places_three_gliders (rnd : Nat → Double)
    (hr : ∀ k, (rnd k).IsUnit) (s : State) (hs : stateOk s = true) :
    ∃ s' w, seedGliders rnd s = some s' ∧ jsGet s'._worlds s'._curDrawWorld = some w
      ∧ liveCount w = 15 ∧ min 3 (WIDTH / 5) * 5 = 15
      ∧ (∀ y x, y < HEIGHT → x < WIDTH →
          (cellAt w y x = some ALIVE ↔
            (y, x) ∈ gliderCells (gliderX (rnd 0) 0) (gliderY (rnd 1))
            ∨ (y, x) ∈ gliderCells (gliderX (rnd 2) 1) (gliderY (rnd 3))
            ∨ (y, x) ∈ gliderCells (gliderX (rnd 4) 2) (gliderY (rnd 5))))
      ∧ (∀ i, i < 3 → gliderX (rnd (2 * i)) i = 8 * i ∨ gliderX (rnd (2 * i)) i = 8 * i + 1)
      ∧ gliderX (rnd 0) 0 + 2 < gliderX (rnd 2) 1
      ∧ gliderX (rnd 2) 1 + 2 < gliderX (rnd 4) 2 := by
  have hwf := (stateOk_iff s).1 hs
  have hin := gliderSeedCells_in_range rnd hr
  have hcols := gliderSeed_columns rnd hr
  have hnd : (gliderSeedCells rnd).Nodup := gliderCells_nodup _ _ _ _ _ _ hcols.1 hcols.2
  have hdead : ∀ p, p ∈ gliderSeedCells rnd → cellAt deadWorld p.1 p.2 ≠ some ALIVE := by
    intro p hp
    rw [cellAt_deadWorld p.1 p.2 (hin p hp).1 (hin p hp).2]
    exact dead_ne_alive
  refine ⟨seeded s (gliderSeedCells rnd), _, seedGliders_eq rnd s hr hwf, seeded_curWorld s _,
    ?_, by decide, ?_, fun i _ => gliderX_bound _ (hr _) i, hcols.1, hcols.2⟩
  · rw [liveCount_stampAll_nodup _ deadWorld worldWF_deadWorld hin hnd hdead,
      liveCount_deadWorld]
    rfl
  · intro y x hy hx
    rw [cellAt_stampAll _ deadWorld worldWF_deadWorld hin y x]
    by_cases hmem : (y, x) ∈ gliderSeedCells rnd
    · rw [if_pos hmem]
      unfold gliderSeedCells at hmem
      simp only [List.mem_append] at hmem
      exact ⟨fun _ => hmem, fun _ => rfl⟩
    · rw [if_neg hmem, cellAt_deadWorld y x hy hx]
      unfold gliderSeedCells at hmem
      simp only [List.mem_append] at hmem
      exact ⟨fun h => absurd h dead_ne_alive, fun h => absurd h hmem⟩

theorem populateGliders_places_three_gliders_witness :
    ((∀ k, (spreadRnd k).IsUnit) ∧ stateOk initState = true) ∧
    ∃ s' w, seedGliders spreadRnd initState = some s' ∧ jsGet s'._worlds s'._curDrawWorld = some w
      ∧ liveCount w = 15 ∧ min 3 (WIDTH / 5) * 5 = 15
      ∧ (∀ y x, y < HEIGHT → x < WIDTH →
          (cellAt w y x = some ALIVE ↔
            (y, x) ∈ gliderCells (gliderX (spreadRnd 0) 0) (gliderY (spreadRnd 1))
            ∨ (y, x) ∈ gliderCells (gliderX (spreadRnd 2) 1) (gliderY (spreadRnd 3))
            ∨ (y, x) ∈ gliderCells (gliderX (spreadRnd 4) 2) (gliderY (spreadRnd 5))))
      ∧ (∀ i, i < 3 →
          gliderX (spreadRnd (2 * i)) i = 8 * i ∨ gliderX (spreadRnd (2 * i)) i = 8 * i + 1)
      ∧ gliderX (spreadRnd 0) 0 + 2 < gliderX (spreadRnd 2) 1
      ∧ gliderX (spreadRnd 2) 1 + 2 < gliderX (spreadRnd 4) 2 :=
  ⟨⟨spreadRnd_isUnit, stateOk_initState⟩,
    populateGliders_places_three_gliders spreadRnd spreadRnd_isUnit initState stateOk_initState⟩

/-- What a seeding phase that marks the in-range cells `ps`, followed by `step()`, does
from a well-formed state. -/
theorem seeded_step (s : State) (ps : List (Nat × Nat)) (hs : StateWF s)
    (hps : ∀ p, p ∈ ps → p.1 < HEIGHT ∧ p.2 < WIDTH) :
    ∃ s2, step (seeded s ps) = some s2
      ∧ jsGet (seeded s ps)._worlds s._curDrawWorld = some (stampAll ps deadWorld)
      ∧ (∀ k, k ≠ s._curDrawWorld → jsGet (seeded s ps)._worlds k = jsGet s._worlds k)
      ∧ (seeded s ps).frames = s.frames
      ∧ s2.frames = s.frames ++ [frameOf (stampAll ps deadWorld)]
      ∧ s2._curDrawWorld = (s._curDrawWorld + 1) % BUFFERS
      ∧ jsGet s2._worlds s2._curDrawWorld = some (nextGen (stampAll ps deadWorld))
      ∧ jsGet s2._worlds s._curDrawWorld = some (stampAll ps deadWorld) := by
  have hwf1 := stateWF_seeded s ps hs hps
  have hcur := seeded_curWorld s ps
  refine ⟨stepped (seeded s ps) (stampAll ps deadWorld),
    step_eq_of_wf _ _ hwf1 hcur, hcur, ?_, rfl, rfl, rfl, updated_curWorld _ _, ?_⟩
  · intro k hk
    show jsGet (jsSet s._worlds s._curDrawWorld _) k = _
    rw [jsGet_jsSet_ne _ _ _ _ hk]
  · rw [← hcur]
    exact updated_prevWorld (drawn (seeded s ps) (stampAll ps deadWorld)) _
      (stateWF_drawn _ _ hwf1)

/-- C19: for `populateRandom` and for `populateGliders`, from every well-formed state with
current index `c` and every sequence of `Math.random()` results in `[0, 1)`: the seeding
phase returns with buffer `c` holding the pattern `S` (the cleared grid with the chosen
cells `ALIVE`) and the other buffers untouched; the call then performs one `step()`,
whose single render paints `S`; on return the current index is `(c + 1) mod BUFFERS`, the
current grid is the successor generation of `S`, and buffer `c` still holds `S`. -/
theorem seeding_then_one_step (rnd : Nat → Double) (hr : ∀ k, (rnd k).IsUnit) (s : State)
    (hs : stateOk s = true) :
    (∃ s1 S s2, seedRandom rnd s = some s1 ∧ step s1 = some s2
      ∧ populateRandom rnd s = some s2
      ∧ S = stampAll (randomCells rnd) (emptyWorld ((jsGet s._worlds s._curDrawWorld).getD []))
      ∧ jsGet s1._worlds s._curDrawWorld = some S
      ∧ (∀ k, k ≠ s._curDrawWorld → jsGet s1._worlds k = jsGet s._worlds k)
      ∧ s1.frames = s.frames
      ∧ s2.frames = s.frames ++ [frameOf S]
      ∧ s2._curDrawWorld = (s._curDrawWorld + 1) % BUFFERS
      ∧ jsGet s2._worlds s2._curDrawWorld = some (nextGen S)
      ∧ jsGet s2._worlds s._curDrawWorld = some S)
    ∧ (∃ s1 S s2, seedGliders rnd s = some s1 ∧ step s1 = some s2
      ∧ populateGliders rnd s = some s2
      ∧ S = stampAll (gliderSeedCells rnd)
              (emptyWorld ((jsGet s._worlds s._curDrawWorld).getD []))
      ∧ jsGet s1._worlds s._curDrawWorld = some S
      ∧ (∀ k, k ≠ s._curDrawWorld → jsGet s1._worlds k = jsGet s._worlds k)
      ∧ s1.frames = s.frames
      ∧ s2.frames = s.frames ++ [frameOf S]
      ∧ s2._curDrawWorld = (s._curDrawWorld + 1) % BUFFERS
      ∧ jsGet s2._worlds s2._curDrawWorld = some (nextGen S)
      ∧ jsGet s2._worlds s._curDrawWorld = some S) := by
  have hwf := (stateOk_iff s).1 hs
  obtain ⟨w0, hw0, hw0wf⟩ := hwf.curWorld
  have hempty : emptyWorld ((jsGet s._worlds s._curDrawWorld).getD []) = deadWorld := by
    rw [hw0]
    exact emptyWorld_eq w0 (by rw [hw0wf.len])
  rw [hempty]
  constructor
  · obtain ⟨s2, h1, h2, h3, h4, h5, h6, h7, h8⟩ :=
      seeded_step s (randomCells rnd) hwf (randomCells_in_range rnd hr)
    have hseed := seedRandom_eq rnd s hr hwf
    refine ⟨_, _, s2, hseed, h1, ?_, rfl, h2, h3, h4, h5, h6, h7, h8⟩
    unfold populateRandom
    rw [hseed]
    exact h1
  · obtain ⟨s2, h1, h2, h3, h4, h5, h6, h7, h8⟩ :=
      seeded_step s (gliderSeedCells rnd) hwf (gliderSeedCells_in_range rnd hr)
    have hseed := seedGliders_eq rnd s hr hwf
    refine ⟨_, _, s2, hseed, h1, ?_, rfl, h2, h3, h4, h5, h6, h7, h8⟩
    unfold populateGliders
    rw [hseed]
    exact h1

theorem seeding_then_one_step_witness :
    ((∀ k, (spreadRnd k).IsUnit) ∧ stateOk initState = true) ∧
    ((∃ s1 S s2, seedRandom spreadRnd initState = some s1 ∧ step s1 = some s2
      ∧ populateRandom spreadRnd initState = some s2
      ∧ S = stampAll (randomCells spreadRnd)
              (emptyWorld ((jsGet initState._worlds initState._curDrawWorld).getD []))
      ∧ jsGet s1._worlds initState._curDrawWorld = some S
      ∧ (∀ k, k ≠ initState._curDrawWorld → jsGet s1._worlds k = jsGet initState._worlds k)
      ∧ s1.frames = initState.frames
      ∧ s2.frames = initState.frames ++ [frameOf S]
      ∧ s2._curDrawWorld = (initState._curDrawWorld + 1) % BUFFERS
      ∧ jsGet s2._worlds s2._curDrawWorld = some (nextGen S)
      ∧ jsGet s2._worlds initState._curDrawWorld = some S)
    ∧ (∃ s1 S s2, seedGliders spreadRnd initState = some s1 ∧ step s1 = some s2
      ∧ populateGliders spreadRnd initState = some s2
      ∧ S = stampAll (gliderSeedCells spreadRnd)
              (emptyWorld ((jsGet initState._worlds initState._curDrawWorld).getD []))
      ∧ jsGet s1._worlds initState._curDrawWorld = some S
      ∧ (∀ k, k ≠ initState._curDrawWorld → jsGet s1._worlds k = jsGet initState._worlds k)
      ∧ s1.frames = initState.frames
      ∧ s2.frames = initState.frames ++ [frameOf S]
      ∧ s2._curDrawWorld = (initState._curDrawWorld + 1) % BUFFERS
      ∧ jsGet s2._worlds s2._curDrawWorld = some (nextGen S)
      ∧ jsGet s2._worlds initState._curDrawWorld = some S)) :=
  ⟨⟨spreadRnd_isUnit, stateOk_initState⟩,
    seeding_then_one_step spreadRnd spreadRnd_isUnit initState stateOk_initState⟩

/-! ## Reachable states -/

theorem populateRandom_eq (rnd : Nat → Double) (s : State) (hr : ∀ k, (rnd k).IsUnit)
    (hs : StateWF s) :
    populateRandom rnd s
      = some (stepped (seeded s (randomCells rnd)) (stampAll (randomCells rnd) deadWorld)) := by
  unfold populateRandom
  rw [seedRandom_eq rnd s hr hs]
  exact step_eq_of_wf _ _ (stateWF_seeded s _ hs (randomCells_in_range rnd hr))
    (seeded_curWorld s _)

theorem populateGliders_eq (rnd : Nat → Double) (s : State) (hr : ∀ k, (rnd k).IsUnit)
    (hs : StateWF s) :
    populateGliders rnd s
      = some (stepped (seeded s (gliderSeedCells rnd))
          (stampAll (gliderSeedCells rnd) deadWorld)) := by
  unfold populateGliders
  rw [seedGliders_eq rnd s hr hs]
  exact step_eq_of_wf _ _ (stateWF_seeded s _ hs (gliderSeedCells_in_range rnd hr))
    (seeded_curWorld s _)

theorem stop_running_eq (s : State) (n : Nat) (hrun : s._isRunning = true)
    (hi : s._interval = TimerHandle.id n) :
    stop s = some { s with timers := s.timers.filter (fun t => t.id != n),
                           _interval := TimerHandle.null, _isRunning := false } := by
  unfold stop
  rw [hrun, hi]
  rfl

theorem stop_idle_eq (s : State) (h : s._isRunning = false) : stop s = some s := by
  unfold stop
  rw [h]; rfl

/-- From a well-formed state whose timers agree with the run flag, every call returns,
and returns such a state. -/
theorem op_preserves (op : Op) (s : State) (hop : op.Valid) (hs : StateWF s)
    (ht : TimerInv s) : ∃ s', op.run s = some s' ∧ StateWF s' ∧ TimerInv s' := by
  obtain ⟨w, hw, _⟩ := hs.curWorld
  cases op with
  | step =>
    exact ⟨_, step_eq_of_wf s w hs hw, stateWF_stepped s w hs, ht⟩
  | start =>
    by_cases hrun : s._isRunning = true
    · exact ⟨s, start_running_eq s hrun, hs, ht⟩
    · have hidle : s._isRunning = false := by simpa using hrun
      refine ⟨_, start_idle_eq s w hs hw hidle, ?_, ?_⟩
      · have h := stateWF_stepped { s with _isRunning := true } w (stateOk_running s true hs)
        exact ⟨h.len, h.bufs, h.cur⟩
      · right
        rcases ht with h | h
        · refine ⟨rfl, s.nextTimerId, rfl, ?_⟩
          show s.timers ++ _ = _
          rw [h.2]; rfl
        · rw [hidle] at h; cases h.1
  | stop =>
    rcases ht with h | ⟨hrun, n, hi, htm⟩
    · exact ⟨s, stop_idle_eq s h.1, hs, Or.inl h⟩
    · refine ⟨_, stop_running_eq s n hrun hi, ⟨hs.len, hs.bufs, hs.cur⟩, Or.inl ⟨rfl, ?_⟩⟩
      show s.timers.filter _ = []
      rw [htm]
      simp
  | populateRandom rnd =>
    exact ⟨_, populateRandom_eq rnd s hop hs,
      stateWF_stepped _ _ (stateWF_seeded s _ hs (randomCells_in_range rnd hop)), ht⟩
  | populateGliders rnd =>
    exact ⟨_, populateGliders_eq rnd s hop hs,
      stateWF_stepped _ _ (stateWF_seeded s _ hs (gliderSeedCells_in_range rnd hop)), ht⟩

theorem reachable_inv (s : State) (h : Reachable s) : StateWF s ∧ TimerInv s := by
  induction h with
  | init => exact ⟨(stateOk_iff _).1 stateOk_initState, Or.inl ⟨rfl, rfl⟩⟩
  | call op s s' _ hop hrun ih =>
    obtain ⟨s2, h2, hwf, hti⟩ := op_preserves op s hop ih.1 ih.2
    rw [h2] at hrun
    cases hrun
    exact ⟨hwf, hti⟩

/-- C16: in every state reachable from initialisation by any sequence of `step`, `start`,
`stop`, `populateRandom` and `populateGliders` calls with `Math.random()` results in
`[0, 1)`, every buffer has exactly `HEIGHT` rows of exactly `WIDTH` cells, each `DEAD` or
`ALIVE`; and every such call made in that state returns (no read of a missing row, no
write outside the grid, which would throw or change the shape) with the state again of
that form. -/
theorem grids_stay_well_formed (s : State) (h : Reachable s) :
    stateOk s = true
    ∧ (∀ k, k < BUFFERS → ∃ w, jsGet s._worlds k = some w ∧ w.length = HEIGHT
        ∧ ∀ y, y < HEIGHT → ∃ row, jsGet w y = some row ∧ row.length = WIDTH
          ∧ ∀ x, x < WIDTH → jsGet row x = some DEAD ∨ jsGet row x = some ALIVE)
    ∧ ∀ op : Op, op.Valid → ∃ s', op.run s = some s' ∧ stateOk s' = true := by
  obtain ⟨hwf, hti⟩ := reachable_inv s h
  refine ⟨(stateOk_iff s).2 hwf, ?_, ?_⟩
  · intro k hk
    obtain ⟨w, hw, hwwf⟩ := hwf.bufs k hk
    refine ⟨w, hw, hwwf.len, fun y hy => ?_⟩
    obtain ⟨r, hr, hrwf⟩ := hwwf.rows y hy
    exact ⟨r, hr, hrwf.len, hrwf.cells⟩
  · intro op hop
    obtain ⟨s', h1, h2, _⟩ := op_preserves op s hop hwf hti
    exact ⟨s', h1, (stateOk_iff s').2 h2⟩

theorem grids_stay_well_formed_witness :
    Reachable initState ∧
    (stateOk initState = true
    ∧ (∀ k, k < BUFFERS → ∃ w, jsGet initState._worlds k = some w ∧ w.length = HEIGHT
        ∧ ∀ y, y < HEIGHT → ∃ row, jsGet w y = some row ∧ row.length = WIDTH
          ∧ ∀ x, x < WIDTH → jsGet row x = some DEAD ∨ jsGet row x = some ALIVE)
    ∧ ∀ op : Op, op.Valid → ∃ s', op.run initState = some s' ∧ stateOk s' = true) :=
  ⟨Reachable.init, grids_stay_well_formed initState Reachable.init⟩

/-- C13: in every state reachable from the initial Idle state by any sequence of `start`,
`stop`, `step`, `populateRandom` and `populateGliders` calls, at most one periodic timer
is registered, and one is registered if and only if `_isRunning` is true; `stop()`
returns with no timer registered and `_isRunning` false, and from an Idle state every
call other than `start()` returns with still no timer registered. -/
theorem no_timer_survives_stop (s : State) (h : Reachable s) :
    s.timers.length ≤ 1
    ∧ (s.timers.length = 1 ↔ s._isRunning = true)
    ∧ (∃ s', stop s = some s' ∧ s'.timers = [] ∧ s'._isRunning = false)
    ∧ (s._isRunning = false → ∀ op : Op, op ≠ Op.start → op.Valid →
        ∃ s', op.run s = some s' ∧ s'.timers = [] ∧ s'._isRunning = false) := by
  obtain ⟨hwf, hti⟩ := reachable_inv s h
  have hstop : ∃ s', stop s = some s' ∧ s'.timers = [] ∧ s'._isRunning = false := by
    obtain ⟨s', h1, _, h3⟩ := op_preserves Op.stop s trivial hwf hti
    have h1' : stop s = some s' := h1
    refine ⟨s', h1', ?_⟩
    have hidle : s'._isRunning = false := by
      rcases hti with hi | ⟨hrun, n, hi, _⟩
      · rw [stop_idle_eq s hi.1] at h1'
        cases h1'
        exact hi.1
      · rw [stop_running_eq s n hrun hi] at h1'
        cases h1'
        rfl
    rcases h3 with h3 | h3
    · exact ⟨h3.2, hidle⟩
    · rw [hidle] at h3; cases h3.1
  refine ⟨?_, ?_, hstop, ?_⟩
  · rcases hti with hi | ⟨_, n, _, htm⟩
    · rw [hi.2]; simp
    · rw [htm]; simp
  · rcases hti with hi | ⟨hrun, n, _, htm⟩
    · rw [hi.1, hi.2]; simp
    · rw [hrun, htm]; simp
  · intro hidle op hne hop
    obtain ⟨s', h1, _, h3⟩ := op_preserves op s hop hwf hti
    refine ⟨s', h1, ?_⟩
    have hflag : s'._isRunning = false := by
      cases op with
      | step => rw [← hidle]; exact (step_shell s s' h1).1
      | start => exact absurd rfl hne
      | stop =>
        have h1' : stop s = some s' := h1
        rw [stop_idle_eq s hidle] at h1'
        cases h1'
        exact hidle
      | populateRandom rnd =>
        have h1' : populateRandom rnd s = some s' := h1
        rw [populateRandom_eq rnd s hop hwf] at h1'
        cases h1'
        exact hidle
      | populateGliders rnd =>
        have h1' : populateGliders rnd s = some s' := h1
        rw [populateGliders_eq rnd s hop hwf] at h1'
        cases h1'
        exact hidle
    rcases h3 with h3 | h3
    · exact ⟨h3.2, hflag⟩
    · rw [hflag] at h3; cases h3.1

theorem no_timer_survives_stop_witness :
    Reachable initState ∧
    (initState.timers.length ≤ 1
    ∧ (initState.timers.length = 1 ↔ initState._isRunning = true)
    ∧ (∃ s', stop initState = some s' ∧ s'.timers = [] ∧ s'._isRunning = false)
    ∧ (initState._isRunning = false → ∀ op : Op, op ≠ Op.start → op.Valid →
        ∃ s', op.run initState = some s' ∧ s'.timers = [] ∧ s'._isRunning = false)) :=
  ⟨Reachable.init, no_timer_survives_stop initState Reachable.init⟩

/-! ## The glider cycle

Patterns are lists of `(row, column)` offsets from an origin; positions relative to the
origin are integers, so that the neighbourhood of a cell on the border of the pattern is
handled uniformly. -/

theorem pat_eq_true (cells : List (Nat × Nat)) (a b : Int) :
    pat cells a b = true ↔ ∃ p, p ∈ cells ∧ a = (p.1 : Int) ∧ b = (p.2 : Int) := by
  unfold pat
  rw [List.any_eq_true]
  constructor
  · rintro ⟨p, hp, h⟩
    simp only [Bool.and_eq_true, decide_eq_true_eq] at h
    exact ⟨p, hp, h⟩
  · rintro ⟨p, hp, h⟩
    exact ⟨p, hp, by simp only [Bool.and_eq_true, decide_eq_true_eq]; exact h⟩

theorem pat_support (cells : List (Nat × Nat)) (hbox : inBox cells = true) (a b : Int)
    (h : pat cells a b = true) : 0 ≤ a ∧ a ≤ 3 ∧ 0 ≤ b ∧ b ≤ 3 := by
  obtain ⟨p, hp, ha, hb⟩ := (pat_eq_true cells a b).1 h
  unfold inBox at hbox
  rw [List.all_eq_true] at hbox
  have := hbox p hp
  simp only [Bool.and_eq_true, decide_eq_true_eq] at this
  omega

theorem pat_far (cells : List (Nat × Nat)) (hbox : inBox cells = true) (a b : Int)
    (h : a < 0 ∨ 3 < a ∨ b < 0 ∨ 3 < b) : pat cells a b = false := by
  cases hp : pat cells a b with
  | false => rfl
  | true =>
    have := pat_support cells hbox a b hp
    omega

/-- Outside the window around the box, a cell is dead and stays dead. -/
theorem life_far (cells cells' : List (Nat × Nat)) (hbox : inBox cells = true)
    (hbox' : inBox cells' = true) (a b : Int) (h : a < -1 ∨ 4 < a ∨ b < -1 ∨ 4 < b) :
    nextCell (pat cells a b) (patCount cells a b)
      = if pat cells' a b then ALIVE else DEAD := by
  have f : ∀ u v : Int, (u < 0 ∨ 3 < u ∨ v < 0 ∨ 3 < v) → pat cells u v = false :=
    fun u v => pat_far cells hbox u v
  unfold patCount
  rw [f (a - 1) (b - 1) (by omega), f (a - 1) b (by omega), f (a - 1) (b + 1) (by omega),
    f a (b - 1) (by omega), f a (b + 1) (by omega), f (a + 1) (b - 1) (by omega),
    f (a + 1) b (by omega), f (a + 1) (b + 1) (by omega), f a b (by omega),
    pat_far cells' hbox' a b (by omega)]
  decide

/-- Each generation of the glider is the B3/S23 successor of the one before, on the
unbounded plane of relative positions. -/
theorem glider_life (k : Nat) (hk : k < 4) (a b : Int) :
    nextCell (pat (gliderGen k) a b) (patCount (gliderGen k) a b)
      = if pat (gliderGen (k + 1)) a b then ALIVE else DEAD := by
  by_cases hwin : a < -1 ∨ 4 < a ∨ b < -1 ∨ 4 < b
  · have hb : ∀ n, n < 5 → inBox (gliderGen n) = true := by decide
    exact life_far _ _ (hb k (by omega)) (hb (k + 1) (by omega)) a b hwin
  · have h1 : -1 ≤ a := by omega
    have h2 : a ≤ 4 := by omega
    have h3 : -1 ≤ b := by omega
    have h4 : b ≤ 4 := by omega
    interval_cases k <;> interval_cases a <;> interval_cases b <;> decide

theorem aliveCount_eq_aliveZ (w : World) (c : Bool) (i' j' : Nat) (i j : Int)
    (hc : c = true ↔ (0 ≤ i ∧ i < (HEIGHT : Int)) ∧ (0 ≤ j ∧ j < (WIDTH : Int)))
    (hidx : c = true → i.toNat = i' ∧ j.toNat = j') :
    aliveCount w c i' j' = if aliveZ w i j then 1 else 0 := by
  unfold aliveCount aliveZ
  cases c with
  | true =>
    obtain ⟨h1, h2⟩ := hc.1 rfl
    obtain ⟨e1, e2⟩ := hidx rfl
    rw [e1, e2]
    simp [h1.1, h1.2, h2.1, h2.2]
  | false =>
    have hn : ¬ ((0 ≤ i ∧ i < (HEIGHT : Int)) ∧ (0 ≤ j ∧ j < (WIDTH : Int))) := by
      intro h
      have := hc.2 h
      cases this
    have : (decide (0 ≤ i) && decide (i < (HEIGHT : Int)) && decide (0 ≤ j)
        && decide (j < (WIDTH : Int))) = false := by
      rw [Bool.eq_false_iff]
      intro h
      simp only [Bool.and_eq_true, decide_eq_true_eq] at h
      exact hn ⟨⟨h.1.1.1, h.1.1.2⟩, h.1.2, h.2⟩
    rw [this]
    simp

/-- The neighbour count in terms of integer positions: a neighbour outside the grid is
not alive. -/
theorem neighbourCount_eq_aliveZ (w : World) (y x : Nat) (hy : y < HEIGHT) (hx : x < WIDTH) :
    neighbourCount w y x
      = (if aliveZ w ((y : Int) - 1) ((x : Int) - 1) then 1 else 0)
        + (if aliveZ w ((y : Int) - 1) (x : Int) then 1 else 0)
        + (if aliveZ w ((y : Int) - 1) ((x : Int) + 1) then 1 else 0)
        + (if aliveZ w (y : Int) ((x : Int) - 1) then 1 else 0)
        + (if aliveZ w (y : Int) ((x : Int) + 1) then 1 else 0)
        + (if aliveZ w ((y : Int) + 1) ((x : Int) - 1) then 1 else 0)
        + (if aliveZ w ((y : Int) + 1) (x : Int) then 1 else 0)
        + (if aliveZ w ((y : Int) + 1) ((x : Int) + 1) then 1 else 0) := by
  unfold neighbourCount
  rw [aliveCount_eq_aliveZ w _ (y - 1) (x - 1) ((y : Int) - 1) ((x : Int) - 1)
      (by simp only [Bool.and_eq_true, decide_eq_true_eq]; omega)
      (fun _ => ⟨by omega, by omega⟩),
    aliveCount_eq_aliveZ w _ (y - 1) x ((y : Int) - 1) (x : Int)
      (by simp only [decide_eq_true_eq]; omega) (fun _ => ⟨by omega, by omega⟩),
    aliveCount_eq_aliveZ w _ (y - 1) (x + 1) ((y : Int) - 1) ((x : Int) + 1)
      (by simp only [Bool.and_eq_true, decide_eq_true_eq]; omega)
      (fun _ => ⟨by omega, by omega⟩),
    aliveCount_eq_aliveZ w _ y (x - 1) (y : Int) ((x : Int) - 1)
      (by simp only [decide_eq_true_eq]; omega) (fun _ => ⟨by omega, by omega⟩),
    aliveCount_eq_aliveZ w _ y (x + 1) (y : Int) ((x : Int) + 1)
      (by simp only [decide_eq_true_eq]; omega) (fun _ => ⟨by omega, by omega⟩),
    aliveCount_eq_aliveZ w _ (y + 1) (x - 1) ((y : Int) + 1) ((x : Int) - 1)
      (by simp only [Bool.and_eq_true, decide_eq_true_eq]; omega)
      (fun _ => ⟨by omega, by omega⟩),
    aliveCount_eq_aliveZ w _ (y + 1) x ((y : Int) + 1) (x : Int)
      (by simp only [decide_eq_true_eq]; omega) (fun _ => ⟨by omega, by omega⟩),
    aliveCount_eq_aliveZ w _ (y + 1) (x + 1) ((y : Int) + 1) ((x : Int) + 1)
      (by simp only [Bool.and_eq_true, decide_eq_true_eq]; omega)
      (fun _ => ⟨by omega, by omega⟩)]

theorem placed_in_range (cells : List (Nat × Nat)) (x y : Nat) (hbox : inBox cells = true)
    (hx : x + 3 < WIDTH) (hy : y + 3 < HEIGHT) :
    ∀ p, p ∈ placed cells x y → p.1 < HEIGHT ∧ p.2 < WIDTH := by
  intro p hp
  unfold placed at hp
  rw [List.mem_map] at hp
  obtain ⟨q, hq, rfl⟩ := hp
  unfold inBox at hbox
  rw [List.all_eq_true] at hbox
  have := hbox q hq
  simp only [Bool.and_eq_true, decide_eq_true_eq] at this
  exact ⟨by simp only []; omega, by simp only []; omega⟩

/-- The grid holding a pattern placed at `(x, y)`: a position is alive exactly when its
position relative to the origin is a cell of the pattern. -/
theorem aliveZ_placed (cells : List (Nat × Nat)) (x y : Nat) (hbox : inBox cells = true)
    (hx : x + 3 < WIDTH) (hy : y + 3 < HEIGHT) (i j : Int) :
    aliveZ (stampAll (placed cells x y) deadWorld) i j
      = pat cells (i - (y : Int)) (j - (x : Int)) := by
  have hin := placed_in_range cells x y hbox hx hy
  rw [Bool.eq_iff_iff, pat_eq_true]
  unfold aliveZ
  simp only [Bool.and_eq_true, decide_eq_true_eq, beq_iff_eq]
  rw [cellAt_stampAll _ deadWorld worldWF_deadWorld hin]
  constructor
  · rintro ⟨⟨⟨⟨h1, h2⟩, h3⟩, h4⟩, h5⟩
    by_cases hmem : (i.toNat, j.toNat) ∈ placed cells x y
    · unfold placed at hmem
      rw [List.mem_map] at hmem
      obtain ⟨q, hq, heq⟩ := hmem
      simp only [Prod.mk.injEq] at heq
      exact ⟨q, hq, by omega, by omega⟩
    · rw [if_neg hmem, cellAt_deadWorld _ _ (by omega) (by omega)] at h5
      exact absurd h5 dead_ne_alive
  · rintro ⟨q, hq, h1, h2⟩
    have hq2 : (y + q.1, x + q.2) ∈ placed cells x y := by
      unfold placed
      exact List.mem_map.2 ⟨q, hq, rfl⟩
    have hr := hin _ hq2
    simp only [] at hr
    have e1 : i.toNat = y + q.1 := by omega
    have e2 : j.toNat = x + q.2 := by omega
    refine ⟨⟨⟨⟨by omega, by omega⟩, by omega⟩, by omega⟩, ?_⟩
    rw [e1, e2, if_pos hq2]

theorem world_ext (a b : World) (ha : WorldWF a) (hb : WorldWF b)
    (h : ∀ y x, y < HEIGHT → x < WIDTH → cellAt a y x = cellAt b y x) : a = b := by
  apply jsArray_ext
  · rw [ha.len, hb.len]
  · intro y hy
    rw [ha.len] at hy
    obtain ⟨ra, hra, hrawf⟩ := ha.rows y hy
    obtain ⟨rb, hrb, hrbwf⟩ := hb.rows y hy
    rw [hra, hrb]
    congr 1
    apply jsArray_ext
    · rw [hrawf.len, hrbwf.len]
    · intro x hx
      rw [hrawf.len] at hx
      have := h y x hy hx
      unfold cellAt at this
      rw [hra, hrb] at this
      exact this

theorem cell_beq_eq_aliveZ (w : World) (y x : Nat) (hy : y < HEIGHT) (hx : x < WIDTH) :
    (cellAt w y x == some ALIVE) = aliveZ w (y : Int) (x : Int) := by
  unfold aliveZ
  have h1 : (0 : Int) ≤ y := by omega
  have h2 : (y : Int) < HEIGHT := by omega
  have h3 : (0 : Int) ≤ x := by omega
  have h4 : (x : Int) < WIDTH := by omega
  simp [h1, h2, h3, h4]

/-- One `update` of the grid holding generation `k` of the glider at `(x, y)` gives the
grid holding generation `k + 1` there. -/
theorem nextGen_placed (k : Nat) (hk : k < 4) (x y : Nat) (hx : x + 3 < WIDTH)
    (hy : y + 3 < HEIGHT) :
    nextGen (stampAll (placed (gliderGen k) x y) deadWorld)
      = stampAll (placed (gliderGen (k + 1)) x y) deadWorld := by
  have hb : ∀ n, n < 5 → inBox (gliderGen n) = true := by decide
  have hbk := hb k (by omega)
  have hbk1 := hb (k + 1) (by omega)
  have hwf1 := worldWF_stampAll _ deadWorld worldWF_deadWorld
    (placed_in_range _ x y hbk1 hx hy)
  apply world_ext _ _ (worldWF_nextGen _) hwf1
  intro i j hi hj
  rw [cellAt_nextGen _ i j hi hj]
  unfold nextCellAt
  rw [cell_beq_eq_aliveZ _ i j hi hj, neighbourCount_eq_aliveZ _ i j hi hj]
  simp only [aliveZ_placed _ x y hbk hx hy]
  have e1 : (i : Int) - 1 - (y : Int) = (i : Int) - (y : Int) - 1 := by ring
  have e2 : (i : Int) + 1 - (y : Int) = (i : Int) - (y : Int) + 1 := by ring
  have e3 : (j : Int) - 1 - (x : Int) = (j : Int) - (x : Int) - 1 := by ring
  have e4 : (j : Int) + 1 - (x : Int) = (j : Int) - (x : Int) + 1 := by ring
  rw [e1, e2, e3, e4]
  have hlife := glider_life k hk ((i : Int) - (y : Int)) ((j : Int) - (x : Int))
  unfold patCount at hlife
  rw [hlife, ← aliveZ_placed _ x y hbk1 hx hy, ← cell_beq_eq_aliveZ _ i j hi hj]
  rcases cellAt_of_worldWF hwf1 i j hi hj with hc | hc
  · rw [hc]
    have : ((some DEAD : Option Nat) == some ALIVE) = false := by decide
    rw [this]
    rfl
  · rw [hc]
    simp

theorem iterUpdate_placed (x y : Nat) (hx : x + 3 < WIDTH) (hy : y + 3 < HEIGHT) (n : Nat) :
    ∀ (k : Nat) (g : State), k + n ≤ 4 → StateWF g →
      jsGet g._worlds g._curDrawWorld = some (stampAll (placed (gliderGen k) x y) deadWorld) →
      ∃ s', iterUpdate n g = some s' ∧ StateWF s'
        ∧ jsGet s'._worlds s'._curDrawWorld
            = some (stampAll (placed (gliderGen (k + n)) x y) deadWorld) := by
  induction n with
  | zero => intro k g _ hg hcur; exact ⟨g, rfl, hg, hcur⟩
  | succ n ih =>
    intro k g hk hg hcur
    have h1 := update_eq_of_wf g _ hg hcur
    have hwf1 := stateWF_updated g (stampAll (placed (gliderGen k) x y) deadWorld) hg
    have hcur1 := updated_curWorld g (stampAll (placed (gliderGen k) x y) deadWorld)
    rw [nextGen_placed k (by omega) x y hx hy] at hcur1
    obtain ⟨s', hs', hwf', hcur'⟩ := ih (k + 1) _ (by omega) hwf1 hcur1
    refine ⟨s', ?_, hwf', ?_⟩
    · show (update g).bind (iterUpdate n) = some s'
      rw [h1, Option.some_bind]
      exact hs'
    · rw [hcur']
      have : k + 1 + n = k + (n + 1) := by omega
      rw [this]

theorem gliderCells_eq_placed (x y : Nat) : gliderCells x y = placed (gliderGen 0) x y := rfl

theorem gliderCells_shift_eq_placed (x y : Nat) :
    gliderCells (x + 1) (y + 1) = placed (gliderGen 4) x y := by
  unfold gliderCells placed gliderGen
  simp only [List.map_cons, List.map_nil, Nat.add_assoc]

/-- C4: for every origin `(x, y)` with `x + 3 < WIDTH` and `y + 3 < HEIGHT`, from every
well-formed state whose current grid is the all-`DEAD` grid with the five cells stamped
by `createGlider(x, y)`, four successive `update()` calls return with the current grid
exactly the all-`DEAD` grid with the five cells stamped by `createGlider(x + 1, y + 1)`;
these grids are what `createGlider` leaves when called on an all-`DEAD` current grid. -/
theorem glider_cycle (g : State) (x y : Nat) (hg : stateOk g = true)
    (hcur : jsGet g._worlds g._curDrawWorld = some (stampAll (gliderCells x y) deadWorld))
    (hx : x + 3 < WIDTH) (hy : y + 3 < HEIGHT) :
    (∃ s4, iterUpdate 4 g = some s4
      ∧ jsGet s4._worlds s4._curDrawWorld
          = some (stampAll (gliderCells (x + 1) (y + 1)) deadWorld))
    ∧ ∀ s : State, stateOk s = true → jsGet s._worlds s._curDrawWorld = some deadWorld →
        ∀ u v, u + 2 < WIDTH → v + 2 < HEIGHT →
          ∃ s', createGlider s u v = some s'
            ∧ jsGet s'._worlds s'._curDrawWorld = some (stampAll (gliderCells u v) deadWorld) := by
  constructor
  · have hwf := (stateOk_iff g).1 hg
    rw [gliderCells_eq_placed] at hcur
    obtain ⟨s4, h4, _, hc4⟩ := iterUpdate_placed x y hx hy 4 0 g (by omega) hwf hcur
    refine ⟨s4, h4, ?_⟩
    rw [hc4, gliderCells_shift_eq_placed]
  · intro s hs hdead u v hu hv
    have hwf := (stateOk_iff s).1 hs
    refine ⟨withWorlds s (jsSet s._worlds s._curDrawWorld
      (stampAll (gliderCells u v) deadWorld)), ?_, ?_⟩
    · rw [createGlider_eq]
      exact stampState_eq (gliderCells u v) s deadWorld hwf hdead worldWF_deadWorld
        (gliderCells_in_range u v hu hv)
    · show jsGet (jsSet s._worlds s._curDrawWorld _) s._curDrawWorld = _
      rw [jsGet_jsSet_self]

theorem glider_cycle_witness :
    (stateOk ((createGlider initState 21 21).getD initState) = true
      ∧ jsGet ((createGlider initState 21 21).getD initState)._worlds
          ((createGlider initState 21 21).getD initState)._curDrawWorld
          = some (stampAll (gliderCells 21 21) deadWorld)
      ∧ 21 + 3 < WIDTH ∧ 21 + 3 < HEIGHT)
    ∧ (∃ s4, iterUpdate 4 ((createGlider initState 21 21).getD initState) = some s4
      ∧ jsGet s4._worlds s4._curDrawWorld
          = some (stampAll (gliderCells (21 + 1) (21 + 1)) deadWorld))
    ∧ ∀ s : State, stateOk s = true → jsGet s._worlds s._curDrawWorld = some deadWorld →
        ∀ u v, u + 2 < WIDTH → v + 2 < HEIGHT →
          ∃ s', createGlider s u v = some s'
            ∧ jsGet s'._worlds s'._curDrawWorld = some (stampAll (gliderCells u v) deadWorld) :=
  ⟨⟨by decide, by decide, by decide, by decide⟩,
    glider_cycle ((createGlider initState 21 21).getD initState) 21 21 (by decide) (by decide)
      (by decide) (by decide)⟩

end Gol
